import Mathlib

/-!
# uni-crazy-router: the navigation interceptor of `src/core.js`

A shallow embedding of the hook chain, the debounce switch and the query
parsing of `core.js`, followed by the properties established about them.

Modelling conventions.

* JavaScript values are the inductive `Val`; promise results and returned
  lists are `Res`; numbers are `Num`, which keeps integers apart from
  fractions, `NaN` and the infinities (rounding is not modelled).
* `routerStatus` (declared in `./storage`, not part of `core.js`) is a
  JavaScript object: a map from property names to values.
* A thrown exception is the `error` side of `Except Val _`; state changes
  made before the throw are kept, as in JavaScript.  A promise is given by
  what it settles to: `ok` for fulfilment, `error` for rejection.
* Asynchronous functions are run to completion: what other tasks do between
  an `await` and its continuation is not modelled.
* Calls into user and host code are recorded, in order, in the world's
  `trace`; `seen` keeps, with each recorded call, whether the debounce was
  open when it was made.
* A hook acts on the router only through `next` and through the
  registration of an `afterNotNext` value, and it may throw or, as an `async`
  function, reject.
* The caller's functions (the payload's callbacks, the `afterNotNext`
  function) are given by `Host.userFn`: any change of the state, ending in a
  returned value or a thrown one.
* The payload is an object of the caller that `intercept` writes to: the
  functions it installs there are the wrapper constructors of `Callback`, and
  `payloadAfter` is the object as the call leaves it.
* `decodeURIComponent`, `encodeURIComponent`, `url.resolve` and the build
  platform `env` belong to the host and are parameters (`Host`);
  `decodeURIComponent` may throw.
-/

set_option autoImplicit false

namespace UniCrazyRouter

/-! ## Values -/

/-- A JavaScript number, as far as `core.js` tells numbers apart. -/
inductive Num where
  /-- An integer. -/
  | int (n : Int)
  /-- A finite number that is not an integer, strictly between `lo` and `lo + 1`. -/
  | between (lo : Int)
  | nan
  | posInf
  | negInf
  deriving DecidableEq

/-- The difference `k - d` for an integer `k`. -/
def Num.subFrom (k : Int) : Num → Num
  | .int n => .int (k - n)
  | .between lo => .between (k - lo - 1)
  | .nan => .nan
  | .posInf => .negInf
  | .negInf => .posInf

/-- The test `x < 0`. -/
def Num.ltZero : Num → Bool
  | .int n => n < 0
  | .between lo => lo < 0
  | .nan => false
  | .posInf => false
  | .negInf => true

/-- The test `x >= 0`. -/
def Num.geZero : Num → Bool
  | .int n => 0 ≤ n
  | .between lo => 0 ≤ lo
  | .nan => false
  | .posInf => true
  | .negInf => false

/-- JavaScript values that occur in the router. -/
inductive Val where
  | undefined
  | null
  | bool (b : Bool)
  | num (n : Num)
  | str (s : String)
  /-- A function value, known by identity and number of declared parameters. -/
  | fn (id : Nat) (arity : Nat)
  /-- A plain object with string-valued properties, such as `{errMsg}`. -/
  | obj (props : List (String × String))
  /-- A route object: the `to` built by `intercept` or the result of `getNowRoute`. -/
  | route (url : String) (routeParams passedParams : Val)
      (query : List (String × String)) (jumpType : Option String) (search : String)
  /-- The bookkeeping object held in `routerStatus.actionInfo`. -/
  | actionInfo (navigateBack : Option Num) (switchTab : Option String)
  /-- A `TypeError` raised by the runtime. -/
  | typeError
  /-- A `URIError` raised by `decodeURIComponent`. -/
  | uriError
  /-- A `Symbol`. -/
  | symbol (id : Nat)
  /-- An object whose conversion to a string throws `thrown`: one whose
  `toString` throws, or one without a prototype (`thrown` is a `TypeError`). -/
  | badToString (thrown : Val)
  deriving DecidableEq

/-- Values a promise settles to, or that `intercept` returns. -/
inductive Res where
  /-- Any value that is not an array. -/
  | val (v : Val)
  /-- An array. -/
  | list (items : List Val)
  /-- The object `new Error(e)`. -/
  | error (cause : Val)
  deriving DecidableEq

deriving instance DecidableEq for Except

/-- JavaScript truthiness. -/
def truthy : Val → Bool
  | .undefined => false
  | .null => false
  | .bool b => b
  | .num (.int n) => n != 0
  | .num .nan => false
  | .str s => s != ""
  | _ => true

/-- The test `typeof v === 'object'`. -/
def isObject : Val → Bool
  | .null => true
  | .obj _ => true
  | .route _ _ _ _ _ _ => true
  | .actionInfo _ _ => true
  | .typeError => true
  | .uriError => true
  | .badToString _ => true
  | _ => false

/-- The shallow copy `{...v}` of a value for which `isObject` holds. -/
def spread : Val → Val
  | .null => .obj []
  | .typeError => .obj []
  | .uriError => .obj []
  | v => v

/-- The number of UTF-16 code units of a string, its JavaScript `length`. -/
def jsLength (s : String) : Nat :=
  (s.toList.map (fun c => if c.val ≥ 0x10000 then 2 else 1)).sum

/-- The test `newResult.length === 1`; reading a property of `undefined` or
`null` throws. -/
def lengthIsOne : Res → Except Val Bool
  | .val .undefined => .error .typeError
  | .val .null => .error .typeError
  | .val (.str s) => .ok (jsLength s == 1)
  | .val (.fn _ arity) => .ok (arity == 1)
  | .val _ => .ok false
  | .list items => .ok (items.length == 1)
  | .error _ => .ok false

/-- What the conversion of a value to a string throws, if it throws. -/
def conversionError : Val → Option Val
  | .symbol _ => some .typeError
  | .badToString thrown => some thrown
  | _ => none

/-- The expression `new Error(e)`: the message is `e` converted to a string,
and the conversion can throw. -/
def newError (e : Val) : Except Val Res :=
  match conversionError e with
  | some thrown => .error thrown
  | none => .ok (.error e)

/-- The object `{errMsg}`. -/
def errObj (errMsg : String) : Val := .obj [("errMsg", errMsg)]

/-! ## Hooks, payloads, pages, and the world -/

/-- What a hook does to the router while it runs. -/
inductive HookStep where
  /-- The hook calls its third argument. -/
  | callNext
  /-- The hook registers a value in `routerStatus.afterNotNext`. -/
  | setAfterNotNext (v : Val)
  deriving DecidableEq

/-- One run of a hook: the steps it performed and, when it threw (or its
promise rejected), the thrown value.  `isAsync` says that the hook is an
`async` function: what it throws, it throws as the rejection of the promise
it returns. -/
structure HookRun where
  steps : List HookStep
  thrown : Option Val
  isAsync : Bool := false
  deriving DecidableEq

/-- A registered hook function. -/
structure Hook where
  id : Nat
  run : Val → Val → HookRun

/-- The value of `payload.fail`, `payload.success` or `payload.complete`. -/
inductive Callback where
  /-- The property is missing, or holds a falsy value. -/
  | absent
  /-- The property holds a truthy value that is not a function. -/
  | nonFunction
  /-- A function of the caller. -/
  | user (id : Nat)
  /-- The function `intercept` stores in `payload.fail` (lines 278-285); it
  keeps the `fail`, `to` and `appPlusNowRoute` of the call that made it. -/
  | failWrapper (fail : Callback) (to_ appPlusNowRoute : Val)
  /-- The function stored in `payload.success` by lines 289-294. -/
  | reLaunchWrapper (success : Callback)
  /-- The function stored in `payload.success` by lines 299-318. -/
  | backWrapper (success : Callback) (to_ appPlusNowRoute : Val)
  deriving DecidableEq

/-- The property holds a function. -/
def Callback.isPresent : Callback → Bool
  | .absent => false
  | _ => true

/-- The argument of a navigation function. -/
structure Payload where
  url : Option String := none
  delta : Option Num := none
  routeParams : Val := .undefined
  passedParams : Val := .undefined
  fail : Callback := .absent
  success : Callback := .absent
  complete : Callback := .absent
  deriving DecidableEq

/-- The component instance `page.$vm`. -/
structure PageVm where
  routeParams : Option Val
  passedParams : Val
  deriving DecidableEq

/-- An entry of the page stack, with the `options` object the host gives
every page (`$mp.query` on h5).  `routeParams = none` means that the page
has no `$routeParams` property. -/
structure Page where
  route : String
  options : List (String × String) := []
  mpQuery : List (String × String) := []
  routeParams : Option Val := none
  passedParams : Val := .undefined
  vm : Option PageVm := none
  deriving DecidableEq

/-- Calls into user or host code, in the order they happen. -/
inductive Event where
  | calledWithNext (hook : Nat) (to_ from_ : Val)
  | calledWithoutNext (hook : Nat) (to_ from_ : Val)
  | native (payload : Payload)
  | callback (id : Nat) (arg : Val)
  | ranAfterNotNext (id : Nat)
  deriving DecidableEq

/-- The mutable state `core.js` works on. -/
structure World where
  routerStatus : String → Val
  waitJumpSucc : Bool
  pages : List Page
  trace : List Event
  seen : List (Event × Bool) := []

/-- The assignment `routerStatus[k] = v`. -/
def World.set (w : World) (k : String) (v : Val) : World :=
  { w with routerStatus := fun k' => if k' = k then v else w.routerStatus k' }

/-- Record a call, and whether `routerStatus.allowAction` is truthy at that moment. -/
def World.log (w : World) (e : Event) : World :=
  { w with
    trace := w.trace ++ [e]
    seen := w.seen ++ [(e, truthy (w.routerStatus "allowAction"))] }

/-- The assignment `waitJumpSucc = b`. -/
def World.setWait (w : World) (b : Bool) : World :=
  { w with waitJumpSucc := b }

/-- The page stack after the host has moved it. -/
def World.setPages (w : World) (pages : List Page) : World :=
  { w with pages := pages }

/-- The hook registries of `./storage`. -/
structure Registry where
  beforeEachFn : List Hook
  afterEachFn : List Hook
  onErrorFn : List Hook

/-- The environment of `core.js`: build platform, library functions, and the
caller's functions, each given by what a call of it with an argument does. -/
structure Host where
  env : String
  resolve : String → String → String
  decodeURIComponent : String → Except Val String
  encodeURIComponent : String → String
  userFn : Nat → Val → World → Except Val Val × World

/-! ## `removeFn` -/

/-- The search of `Array.prototype.indexOf`, counting from `i`. -/
def indexOfFrom {α : Type} [DecidableEq α] : List α → α → Nat → Int
  | [], _, _ => -1
  | y :: ys, x, i => if y = x then (i : Int) else indexOfFrom ys x (i + 1)

/-- The method `Array.prototype.indexOf`: `-1` when absent. -/
def indexOf {α : Type} [DecidableEq α] (l : List α) (x : α) : Int :=
  indexOfFrom l x 0

/-- The method `Array.prototype.splice(start, deleteCount)`: a negative
`start` counts from the end. -/
def splice {α : Type} (l : List α) (start deleteCount : Int) : List α :=
  let len : Int := l.length
  let actualStart : Nat :=
    if start < 0 then (max (len + start) 0).toNat else (min start len).toNat
  let actualDelete : Nat := (min (max deleteCount 0) (len - actualStart)).toNat
  l.take actualStart ++ l.drop (actualStart + actualDelete)

/-- The function `removeFn (fnList, fn)`, returning the list after the call. -/
def removeFn {α : Type} [DecidableEq α] (fnList : List α) (fn : α) : List α :=
  splice fnList (indexOf fnList fn) 1

/-! ## Hook chains -/

/-- Run the steps of a hook that was given `next`: `stop` is the local flag
of `callWithNext`. -/
def runSteps : List HookStep → Bool → World → Bool × World
  | [], stop, w => (stop, w)
  | .callNext :: rest, _, w => runSteps rest false (w.set "afterNotNext" .null)
  | .setAfterNotNext v :: rest, stop, w => runSteps rest stop (w.set "afterNotNext" v)

/-- The function `callWithNext (fnList, to, from)`: `ok b` is resolution to
`b`, `error e` is rejection. -/
def callWithNext : List Hook → Val → Val → World → Except Val Bool × World
  | [], _, _, w => (.ok true, w)
  | fn :: rest, to_, from_, w =>
    let r := fn.run to_ from_
    let sw := runSteps r.steps true (w.log (.calledWithNext fn.id to_ from_))
    match r.thrown with
    | some e => (.error e, sw.2)
    | none => if sw.1 then (.ok false, sw.2) else callWithNext rest to_ from_ sw.2

/-- Run the steps of a hook that was called with two arguments only: its
third parameter is `undefined`, and calling it throws. -/
def runStepsPlain : List HookStep → World → Except Val Unit × World
  | [], w => (.ok (), w)
  | .callNext :: _, w => (.error .typeError, w)
  | .setAfterNotNext v :: rest, w => runStepsPlain rest (w.set "afterNotNext" v)

/-- The function `callWithoutNext (fnList, to, from)`.  The hooks are called
and not awaited: what an `async` hook throws stays in the promise it
returns, and the next hook is called. -/
def callWithoutNext : List Hook → Val → Val → World → Except Val Unit × World
  | [], _, _, w => (.ok (), w)
  | fn :: rest, to_, from_, w =>
    let r := fn.run to_ from_
    match runStepsPlain r.steps (w.log (.calledWithoutNext fn.id to_ from_)) with
    | (.error e, w1) =>
      if r.isAsync then callWithoutNext rest to_ from_ w1 else (.error e, w1)
    | (.ok _, w1) =>
      match r.thrown with
      | some e => if r.isAsync then callWithoutNext rest to_ from_ w1 else (.error e, w1)
      | none => callWithoutNext rest to_ from_ w1

/-! ## Route parameters -/

/-- The function `getParams (paramsName)`. -/
def getParams (paramsName : String) (w : World) : Val × World :=
  (w.routerStatus paramsName, w.set paramsName .null)

/-- The value `payload[paramsName]` for the two names `intercept` uses. -/
def Payload.param (payload : Payload) (paramsName : String) : Val :=
  if paramsName = "routeParams" then payload.routeParams
  else if paramsName = "passedParams" then payload.passedParams
  else .undefined

/-- The function `extractParams (payload, paramsName)`; the payload itself
is returned unchanged. -/
def extractParams (payload : Payload) (paramsName : String) (w : World) : World :=
  if isObject (payload.param paramsName) then
    w.set paramsName (spread (payload.param paramsName))
  else w

/-- The function `callAfterNotNext ()`: the property is cleared, then a
function that was held in it is called, without arguments. -/
def callAfterNotNext (host : Host) (w : World) : Except Val Unit × World :=
  let afterNotNext := w.routerStatus "afterNotNext"
  let w1 := w.set "afterNotNext" .null
  match afterNotNext with
  | .fn id _ =>
    match host.userFn id .undefined (w1.log (.ranAfterNotNext id)) with
    | (.ok _, w2) => (.ok (), w2)
    | (.error e, w2) => (.error e, w2)
  | _ => (.ok (), w1)

/-! ## Query strings -/

/-- The array index a property name stands for, if it is the canonical
numeral of one: such names come first, in ascending order, when the
properties of an object are listed. -/
def arrayIndex (k : String) : Option Nat :=
  let cs := k.toList
  if cs = [] then none
  else if cs.all Char.isDigit && (cs == ['0'] || cs.head? != some '0') then
    let n := cs.foldl (fun acc c => acc * 10 + (c.toNat - 48)) 0
    if n < 4294967295 then some n else none
  else none

/-- Overwrite the value of a property that exists; its place is kept. -/
def replaceProp : List (String × String) → String → String → List (String × String)
  | [], _, _ => []
  | (k', v') :: rest, k, v =>
    if k' = k then (k, v) :: rest else (k', v') :: replaceProp rest k v

/-- Add a new property whose name is the array index `n`. -/
def insertIndexProp (n : Nat) (k v : String) :
    List (String × String) → List (String × String)
  | [] => [(k, v)]
  | (k', v') :: rest =>
    match arrayIndex k' with
    | some m =>
      if m < n then (k', v') :: insertIndexProp n k v rest else (k, v) :: (k', v') :: rest
    | none => (k, v) :: (k', v') :: rest

/-- The assignment `query[k] = v` of a string to a property of a plain
object, kept as the list `Object.keys` walks: the name `__proto__` stores
nothing, an existing property keeps its place, a new array index goes among
the indices, any other new name goes last. -/
def setProp (query : List (String × String)) (k v : String) : List (String × String) :=
  if k = "__proto__" then query
  else if query.any (fun kv => kv.1 == k) then replaceProp query k v
  else
    match arrayIndex k with
    | some n => insertIndexProp n k v query
    | none => query ++ [(k, v)]

/-- The function `decodeParamsMap (paramsMap)`: values are decoded in turn,
keys are not; the first value that does not decode throws. -/
def decodeParamsMap (host : Host) :
    List (String × String) → Except Val (List (String × String))
  | [] => .ok []
  | (k, v) :: rest =>
    match host.decodeURIComponent v with
    | .error e => .error e
    | .ok v' =>
      match decodeParamsMap host rest with
      | .error e => .error e
      | .ok rest' => .ok ((k, v') :: rest')

/-- The method `Array.prototype.join('&')`. -/
def joinAmp : List String → String
  | [] => ""
  | [s] => s
  | s :: rest => s ++ "&" ++ joinAmp rest

/-- The function `encodeParamsMapToString (paramsMap)`. -/
def encodeParamsMapToString (host : Host) (paramsMap : List (String × String)) : String :=
  joinAmp (paramsMap.map (fun kv => kv.1 ++ "=" ++ host.encodeURIComponent kv.2))

/-- The replacement `.replace(/^\/([^\/])/, '$1')`: a leading slash is
dropped unless another slash follows it. -/
def stripRootSlash : List Char → List Char
  | '/' :: c :: rest => if c = '/' then '/' :: c :: rest else c :: rest
  | s => s

/-- The match `toUrl.match(/([^?]+)\?([\s\S]*)/)`: the two groups of the
leftmost match, if there is one. -/
def matchQuery (s : List Char) : Option (List Char × List Char) :=
  match (s.dropWhile (fun c => c == '?')).span (fun c => c != '?') with
  | (path, '?' :: qs) => some (path, qs)
  | _ => none

/-- The method `String.prototype.split('&')`. -/
def splitAmp : List Char → List (List Char)
  | [] => [[]]
  | c :: cs =>
    if c = '&' then [] :: splitAmp cs
    else
      match splitAmp cs with
      | [] => [[c]]
      | seg :: segs => (c :: seg) :: segs

/-- The match `paramString.match(/^([^=]+)=([\s\S]*)$/)`. -/
def matchParam (paramString : List Char) : Option (List Char × List Char) :=
  match paramString.span (fun c => c != '=') with
  | ([], _) => none
  | (k, '=' :: v) => some (k, v)
  | _ => none

/-- The body of the `forEach` over the `&`-separated pieces (lines 249-257). -/
def addParam (query : List (String × String)) (paramString : List Char) :
    List (String × String) :=
  if paramString = [] then query
  else
    match matchParam paramString with
    | some (k, v) =>
      if v ≠ [] then setProp query (String.mk k) (String.mk v)
      else setProp query (String.mk paramString) ""
    | none => setProp query (String.mk paramString) ""

/-- The raw query object built from the text after the question mark. -/
def parseSearch (qs : List Char) : List (String × String) :=
  (splitAmp qs).foldl addParam []

/-! ## The page stack -/

/-- The function `getNowPage ()`; `none` is `undefined`. -/
def getNowPage (w : World) : Option Page := w.pages.getLast?

/-- The function `getNowUrl ()`: reading `route` of a missing page throws. -/
def getNowUrl (w : World) : Except Val String :=
  match getNowPage w with
  | none => .error .typeError
  | some page => .ok page.route

/-- The function `getPageOptions (page)` on an existing page. -/
def getPageOptions (host : Host) (page : Page) : List (String × String) :=
  if host.env = "h5" then page.mpQuery else page.options

/-- The query of a page as lines 233-238 and 376-380 compute it: the page
options, decoded unless the platform is h5. -/
def pageQuery (host : Host) (page : Page) : Except Val (List (String × String)) :=
  if host.env ≠ "h5" then decodeParamsMap host (getPageOptions host page)
  else .ok (getPageOptions host page)

/-- The function `getNowRoute ()`. -/
def getNowRoute (host : Host) (w : World) : Except Val Val :=
  match getNowPage w with
  | none => .error .typeError
  | some nowPage =>
    match pageQuery host nowPage with
    | .error e => .error e
    | .ok query =>
      .ok (.route nowPage.route (nowPage.routeParams.getD .undefined) nowPage.passedParams
        query none (encodeParamsMapToString host query))

/-- The function `watchAllowAction ()`, called without a hook. -/
def watchAllowAction (w : World) : World :=
  (if w.waitJumpSucc then w.set "allowAction" (.bool true) else w).setWait false

/-- Replace the top of the page stack. -/
def setNowPage (w : World) (page : Page) : World :=
  w.setPages (w.pages.dropLast ++ [page])

/-- The parameter hand-over to the current page (lines 116-126 and 301-311). -/
def passParams (page : Page) (w : World) : World :=
  let r1 := if page.routeParams.isNone then
      let g := getParams "routeParams" w
      ({ page with routeParams := some g.1 }, g.2)
    else (page, w)
  let g2 := getParams "passedParams" r1.2
  let page2 : Page := { r1.1 with passedParams := g2.1 }
  match page2.vm with
  | none => setNowPage g2.2 page2
  | some vm =>
    let vm1 : PageVm := { vm with passedParams := page2.passedParams }
    if vm1.routeParams.isNone then
      let g3 := getParams "routeParams" g2.2
      setNowPage g3.2 { page2 with vm := some { vm1 with routeParams := some g3.1 } }
    else setNowPage g2.2 { page2 with vm := some vm1 }

/-- The test `getNowUrl() === to.url` for a readable page stack. -/
def nowUrlIs (w : World) (to_ : Val) : Bool :=
  match getNowUrl w, to_ with
  | .ok u, .route url _ _ _ _ _ => u == url
  | _, _ => false

/-- The condition of the special case for `reLaunch` on h5 (lines 108, 288). -/
def reLaunchCase (host : Host) (jumpType : String) (to_ : Val) (w : World) : Bool :=
  jumpType == "reLaunch" && w.pages.length == 1 && nowUrlIs w to_ && host.env == "h5"

/-- The condition of the special case for `navigateBack` and app-plus
(lines 114, 298). -/
def backCase (host : Host) (jumpType : String) (w : World) : Bool :=
  (jumpType == "navigateBack" && w.pages.length == 1) || host.env == "app-plus"

/-- The second argument handed to the hooks:
`env === 'app-plus' ? appPlusNowRoute : routerStatus.current`. -/
def fromOf (host : Host) (appPlusNowRoute : Val) (w : World) : Val :=
  if host.env = "app-plus" then appPlusNowRoute else w.routerStatus "current"

/-- The work shared by lines 115-130 and 300-314: reset the debounce, hand
the parameters over, run the `afterEach` hooks, record the current route.
The hooks' second argument is read when they are called. -/
def afterJump (host : Host) (reg : Registry) (to_ : Val) (from_ : World → Val) (w : World) :
    Except Val Unit × World :=
  let w1 := watchAllowAction w
  match getNowPage w1 with
  | none => (.error .typeError, w1)
  | some page =>
    let w2 := passParams page w1
    match callWithoutNext reg.afterEachFn to_ (from_ w2) w2 with
    | (.error e, w3) => (.error e, w3)
    | (.ok _, w3) =>
      match getNowRoute host w3 with
      | .error e => (.error e, w3)
      | .ok r => (.ok (), w3.set "current" r)

/-! ## `getAsyncResult` -/

/-- The `try` block of `getAsyncResult`: `result` is what the awaited value
settles to, `error` being a rejection. -/
def getAsyncResultTry (host : Host) (reg : Registry) (result : Except Val Res)
    (to_ from_ : Val) (jumpType : String) (w : World) : Except Val Res × World :=
  match result with
  | .error e => (.error e, w)
  | .ok newResult =>
    match lengthIsOne newResult with
    | .error e => (.error e, w)
    | .ok true =>
      match callWithoutNext reg.onErrorFn to_ from_ (w.set "allowAction" (.bool true)) with
      | (.error e, w1) => (.error e, w1)
      | (.ok _, w1) => (.ok newResult, w1)
    | .ok false =>
      if reLaunchCase host jumpType to_ w then (.ok newResult, watchAllowAction w)
      else if backCase host jumpType w then
        match afterJump host reg to_ (fun _ => from_) w with
        | (.error e, w1) => (.error e, w1)
        | (.ok _, w1) => (.ok newResult, w1)
      else (.ok newResult, w)

/-- The function `getAsyncResult (result, to, from, jumpType)`: `ok r` is
resolution to `r`, `error e` is rejection.  The `catch` clause returns
`new Error(e)`, an expression that can throw itself. -/
def getAsyncResult (host : Host) (reg : Registry) (result : Except Val Res)
    (to_ from_ : Val) (jumpType : String) (w : World) : Except Val Res × World :=
  match getAsyncResultTry host reg result to_ from_ jumpType w with
  | (.ok r, w1) => (.ok r, w1)
  | (.error e, w1) => (newError e, w1)

/-! ## `intercept` -/

/-- What the native navigation function does when it is called. -/
inductive NativeOutcome where
  /-- It returns a promise that fulfils with `r`. -/
  | resolves (r : Res)
  /-- It returns a promise that rejects with `e`. -/
  | rejects (e : Val)
  /-- It throws `e`. -/
  | throws (e : Val)
  /-- It returns `undefined` and calls `payload.fail(arg)` if there is one. -/
  | fails (arg : Val)
  /-- It returns `undefined` and calls `payload.success(arg)` if there is one. -/
  | succeeds (arg : Val)
  /-- It returns `undefined` and calls nothing. -/
  | silent
  deriving DecidableEq

/-- The native navigation function: its outcome, and the page stack by the
time the outcome is delivered. -/
structure Native where
  outcome : NativeOutcome
  pagesAfter : List Page

/-- How a call of `intercept` ends. -/
inductive Outcome where
  /-- It returns a value that is not a promise. -/
  | ret (r : Res)
  /-- It throws. -/
  | throw (e : Val)
  /-- It returns a promise that fulfils with `r`. -/
  | resolve (r : Res)
  /-- It returns a promise that rejects with `e`. -/
  | reject (e : Val)
  deriving DecidableEq

/-- The result of the synchronous part of `intercept` (lines 198-274). -/
inductive Gate where
  /-- The page stack cannot be read: line 202. -/
  | unreadable
  /-- The debounce is closed and the payload has no callback: line 211, with
  the returned value. -/
  | rejected (r : Res)
  /-- The debounce is closed and the payload has a callback: line 213 is next. -/
  | refused
  /-- An exception left the synchronous part. -/
  | threw (e : Val)
  /-- The action goes on with this `to` and this `appPlusNowRoute`. -/
  | accepted (to_ appPlusNowRoute : Val)
  deriving DecidableEq

/-- The message of a debounced action. -/
def debounceMsg : String := "动作被拦截，因为已经有一个正在执行的路由动作"

/-- The message of a chain stopped by a hook. -/
def notNextMsg : String := "beforeEach中没有使用next"

/-- The test `fail || success || complete`. -/
def Payload.hasCallback (payload : Payload) : Bool :=
  payload.fail.isPresent || payload.success.isPresent || payload.complete.isPresent

/-- A call `cb(arg)` of a payload property that is guarded by a test of its
presence, as all calls in `core.js` are: `payload.fail && payload.fail(..)`,
`if (fail) return fail.apply(this, params)`.  A function of the caller does
what `Host.userFn` says; a wrapper does what lines 278-285, 289-294 and
299-318 say, with the values it has kept. -/
def callCallback (host : Host) (reg : Registry) :
    Callback → Val → World → Except Val Val × World
  | .absent, _, w => (.ok .undefined, w)
  | .nonFunction, _, w => (.error .typeError, w)
  | .user id, arg, w => host.userFn id arg (w.log (.callback id arg))
  | .failWrapper fail to_ appPlusNowRoute, arg, w =>
    match callWithoutNext reg.onErrorFn to_
        (fromOf host appPlusNowRoute (w.set "allowAction" (.bool true)))
        (w.set "allowAction" (.bool true)) with
    | (.error e, w2) => (.error e, w2)
    | (.ok _, w2) => callCallback host reg fail arg w2
  | .reLaunchWrapper success, arg, w =>
    callCallback host reg success arg (watchAllowAction w)
  | .backWrapper success to_ appPlusNowRoute, arg, w =>
    match afterJump host reg to_ (fromOf host appPlusNowRoute) w with
    | (.error e, w1) => (.error e, w1)
    | (.ok _, w1) => callCallback host reg success arg w1

/-- The assignment `routerStatus.actionInfo.navigateBack = targetIndex`.
A value that is not the bookkeeping object is taken to refuse the write, as
`null`, `undefined` and primitives do. -/
def setNavigateBack (targetIndex : Num) (w : World) : Except Val World :=
  match w.routerStatus "actionInfo" with
  | .actionInfo _ st => .ok (w.set "actionInfo" (.actionInfo (some targetIndex) st))
  | _ => .error .typeError

/-- The assignment `routerStatus.actionInfo.switchTab = toUrl`. -/
def setSwitchTab (toUrl : String) (w : World) : Except Val World :=
  match w.routerStatus "actionInfo" with
  | .actionInfo nb _ => .ok (w.set "actionInfo" (.actionInfo nb (some toUrl)))
  | _ => .error .typeError

/-- The number `getCurrentPages().length - 1 - delta`, replaced by `0` when it
is negative (lines 225-229); `delta` is `1` when the payload has none. -/
def targetIndex (w : World) (payload : Payload) : Num :=
  let t : Num := Num.subFrom ((w.pages.length : Int) - 1) (payload.delta.getD (.int 1))
  if t.ltZero then .int 0 else t

/-- The lookup `getCurrentPages()[i]`: only an integer within the stack
finds a page. -/
def pageAt (w : World) : Num → Option Page
  | .int i => if 0 ≤ i then w.pages.get? i.toNat else none
  | _ => none

/-- The pieces of `to` computed by the two branches of lines 224-260. -/
structure Target where
  toUrl : String
  query : List (String × String)
  search : String
  deriving DecidableEq

/-- The branch for `navigateBack` (lines 225-238). -/
def backTarget (host : Host) (payload : Payload) (w : World) : Except Val Target × World :=
  match setNavigateBack (targetIndex w payload) w with
  | .error e => (.error e, w)
  | .ok w1 =>
    match pageAt w1 (targetIndex w payload) with
    | none => (.error .typeError, w1)
    | some page =>
      match pageQuery host page with
      | .error e => (.error e, w1)
      | .ok query =>
        (.ok { toUrl := page.route, query := query,
               search := encodeParamsMapToString host (getPageOptions host page) }, w1)

/-- The branch for the other jumps (lines 241-259), from the current url. -/
def urlTarget (host : Host) (payload : Payload) (currentUrl : String) : Except Val Target :=
  let resolved := stripRootSlash (host.resolve currentUrl (payload.url.getD "")).toList
  let tempMatch := matchQuery resolved
  let toUrl :=
    match tempMatch with
    | some (path, _) => if path ≠ [] then path else resolved
    | none => resolved
  let qs :=
    match tempMatch with
    | some (_, qs) => qs
    | none => []
  match decodeParamsMap host (if qs ≠ [] then parseSearch qs else []) with
  | .error e => .error e
  | .ok query => .ok { toUrl := String.mk toUrl, query := query, search := String.mk qs }

/-- The synchronous part of `intercept` (lines 198-274), up to the call of
line 213 when the debounce is closed. -/
def interceptSync (host : Host) (payload : Payload) (jumpType : String)
    (w : World) : Gate × World :=
  match getNowUrl w with
  | .error _ => (.unreadable, w)
  | .ok currentUrl =>
    match getNowRoute host w with
    | .error e => (.threw e, w)
    | .ok appPlusNowRoute =>
      if !truthy (w.routerStatus "allowAction") then
        if !payload.hasCallback then (.rejected (.list [errObj debounceMsg]), w)
        else (.refused, w)
      else
        let w1 : World := (w.set "allowAction" (.bool false)).setWait false
        let t : Except Val Target × World :=
          if jumpType = "navigateBack" then backTarget host payload w1
          else (urlTarget host payload currentUrl, w1)
        match t with
        | (.error e, w2) => (.threw e, w2)
        | (.ok tg, w2) =>
          let w3 : Except Val World :=
            if jumpType = "switchTab" then setSwitchTab tg.toUrl w2 else .ok w2
          match w3 with
          | .error e => (.threw e, w2)
          | .ok w3 =>
            (.accepted
              (.route tg.toUrl payload.routeParams payload.passedParams tg.query
                (some jumpType) tg.search)
              appPlusNowRoute,
             w3.set "actionType" (.str jumpType))

/-- The payload object after lines 278-319 have stored their functions in
it: `fail` always, `success` in the two special cases, the later assignment
winning. -/
def installWrappers (host : Host) (payload : Payload) (jumpType : String)
    (to_ appPlusNowRoute : Val) (w : World) : Payload :=
  let p1 : Payload := { payload with fail := .failWrapper payload.fail to_ appPlusNowRoute }
  let p2 : Payload :=
    if reLaunchCase host jumpType to_ w then
      { p1 with success := .reLaunchWrapper payload.success }
    else p1
  if backCase host jumpType w then
    { p2 with success := .backWrapper payload.success to_ appPlusNowRoute }
  else p2

/-- The call `nativeFun.call(uni, extractParams(extractParams(payload,
'routeParams'), 'passedParams'))`, up to the moment the native function has
been entered and the page stack has moved. -/
def enterNative (native : Native) (payload : Payload) (w : World) : World :=
  let w1 := extractParams payload "passedParams" (extractParams payload "routeParams" w)
  (w1.log (.native payload)).setPages native.pagesAfter

/-- What the native function does with the payload it was given, once it
has been entered: the callbacks it calls.  An exception of a callback ends
in the host. -/
def nativeCallbacks (host : Host) (reg : Registry) (native : Native) (payload : Payload)
    (w : World) : World :=
  match native.outcome with
  | .fails arg => (callCallback host reg payload.fail arg w).2
  | .succeeds arg => (callCallback host reg payload.success arg w).2
  | _ => w

/-- The asynchronous function of the callback style (lines 322-332);
`payload` is the object with the wrappers in it. -/
def callbackChain (host : Host) (reg : Registry) (native : Native) (payload : Payload)
    (to_ appPlusNowRoute : Val) (w : World) : World :=
  match callWithNext reg.beforeEachFn to_ (fromOf host appPlusNowRoute w) w with
  | (.error _, w1) => w1
  | (.ok false, w1) =>
    match callCallback host reg payload.fail (errObj notNextMsg) w1 with
    | (.error _, w2) => w2
    | (.ok _, w2) => (callAfterNotNext host w2).2
  | (.ok true, w1) =>
    nativeCallbacks host reg native payload (enterNative native payload (w1.setWait true))

/-- The asynchronous function of the promise style (lines 337-349). -/
def promiseChain (host : Host) (reg : Registry) (native : Native) (payload : Payload)
    (jumpType : String) (to_ appPlusNowRoute : Val) (w : World) : Except Val Res × World :=
  match callWithNext reg.beforeEachFn to_ (fromOf host appPlusNowRoute w) w with
  | (.error e, w1) => (.error e, w1)
  | (.ok false, w1) =>
    match callAfterNotNext host (w1.set "allowAction" (.bool true)) with
    | (.error e, w2) => (.error e, w2)
    | (.ok _, w2) => (.ok (.list [errObj notNextMsg]), w2)
  | (.ok true, w1) =>
    let w2 := enterNative native payload (w1.setWait true)
    let from_ := fromOf host appPlusNowRoute w2
    match native.outcome with
    | .throws e => (.error e, w2)
    | .resolves r => getAsyncResult host reg (.ok r) to_ from_ jumpType w2
    | .rejects e => getAsyncResult host reg (.error e) to_ from_ jumpType w2
    | _ => getAsyncResult host reg (.ok (.val .undefined)) to_ from_ jumpType w2

/-- The direct call of line 202, with the payload as given. -/
def directCall (host : Host) (reg : Registry) (native : Native) (payload : Payload)
    (w : World) : Outcome × World :=
  let w1 : World := (w.log (.native payload)).setPages native.pagesAfter
  match native.outcome with
  | .resolves r => (.resolve r, w1)
  | .rejects e => (.reject e, w1)
  | .throws e => (.throw e, w1)
  | _ => (.ret (.val .undefined), nativeCallbacks host reg native payload w1)

/-- What `intercept` does after its synchronous part. -/
def interceptRest (host : Host) (reg : Registry) (native : Native) (payload : Payload)
    (jumpType : String) : Gate × World → Outcome × World
  | (.unreadable, w1) => directCall host reg native payload w1
  | (.rejected r, w1) => (.ret r, w1)
  | (.refused, w1) =>
    match callCallback host reg payload.fail (errObj debounceMsg) w1 with
    | (.ok v, w2) => (.ret (.val v), w2)
    | (.error e, w2) => (.throw e, w2)
  | (.threw e, w1) => (.throw e, w1)
  | (.accepted to_ appPlusNowRoute, w1) =>
    if payload.hasCallback then
      (.ret (.val .undefined),
        callbackChain host reg native
          (installWrappers host payload jumpType to_ appPlusNowRoute w1)
          to_ appPlusNowRoute w1)
    else
      match promiseChain host reg native payload jumpType to_ appPlusNowRoute w1 with
      | (.ok r, w2) => (.resolve r, w2)
      | (.error e, w2) => (.reject e, w2)

/-- The function `intercept (nativeFun, payload, jumpType)`. -/
def intercept (host : Host) (reg : Registry) (native : Native) (payload : Payload)
    (jumpType : String) (w : World) : Outcome × World :=
  interceptRest host reg native payload jumpType (interceptSync host payload jumpType w)

/-- The caller's payload object as a call of `intercept` leaves it: an
accepted callback-style call has stored its wrappers in it. -/
def payloadAfter (host : Host) (payload : Payload) (jumpType : String)
    (w : World) : Payload :=
  match interceptSync host payload jumpType w with
  | (.accepted to_ appPlusNowRoute, w1) =>
    if payload.hasCallback then installWrappers host payload jumpType to_ appPlusNowRoute w1
    else payload
  | _ => payload

/-! ## Predicates used in the statements -/

/-- The hook calls `next` during its run with these arguments. -/
def Hook.callsNext (h : Hook) (to_ from_ : Val) : Prop :=
  HookStep.callNext ∈ (h.run to_ from_).steps

/-- The hook returns (or its promise fulfils) instead of throwing. -/
def Hook.finishes (h : Hook) (to_ from_ : Val) : Prop :=
  (h.run to_ from_).thrown = none

/-- The invocations, in order, of the given hooks with `(to, from, next)`. -/
def hookEvents (fnList : List Hook) (to_ from_ : Val) : List Event :=
  fnList.map (fun h => Event.calledWithNext h.id to_ from_)

/-- The event is a call of the native navigation function. -/
def Event.isNative : Event → Bool
  | .native _ => true
  | _ => false

/-- The event is a call of a hook with `next`, as `beforeEach` hooks are called. -/
def Event.isHookWithNext : Event → Bool
  | .calledWithNext _ _ _ => true
  | _ => false

/-- How often the native navigation function was called. -/
def nativeCalls (trace : List Event) : Nat := trace.countP Event.isNative

/-- How often a hook was called with `next`. -/
def guardCalls (trace : List Event) : Nat := trace.countP Event.isHookWithNext

/-- A call of the native function or of a hook with `next` that was made
while the debounce was open. -/
def isOpenCall (x : Event × Bool) : Bool :=
  (x.1.isNative || x.1.isHookWithNext) && x.2

/-- How many calls of the native function and of hooks with `next` were made
while the debounce was open. -/
def openCalls (seen : List (Event × Bool)) : Nat := seen.countP isOpenCall

/-- Between the two states the native function was not called, no hook was
called with `next`, and so none of them with the debounce open. -/
structure SameCalls (w w1 : World) : Prop where
  native : nativeCalls w1.trace = nativeCalls w.trace
  guard : guardCalls w1.trace = guardCalls w.trace
  opened : openCalls w1.seen = openCalls w.seen

/-- The caller's functions do not navigate themselves: a call of one of them
calls neither the native function nor a hook with `next`. -/
def UserQuiet (host : Host) : Prop :=
  ∀ id arg w, SameCalls w (host.userFn id arg w).2

/-- The state keeps its trace, page stack and debounce flag. -/
structure Quiet (w w1 : World) : Prop where
  trace : w1.trace = w.trace
  seen : w1.seen = w.seen
  pages : w1.pages = w.pages
  allow : w1.routerStatus "allowAction" = w.routerStatus "allowAction"

/-! ## Sample inputs -/

/-- A router status as `./storage` sets it up: the debounce open, no
parameters pending, empty bookkeeping. -/
def freshStatus : String → Val := fun k =>
  if k = "allowAction" then .bool true
  else if k = "actionInfo" then .actionInfo none none
  else if k = "actionType" then .undefined
  else .null

/-- A world with one page on the stack. -/
def onePage : World :=
  { routerStatus := freshStatus
    waitJumpSucc := false
    pages := [{ route := "pages/index" }]
    trace := [] }

/-- The same world while another action is in flight. -/
def busyPage : World := onePage.set "allowAction" (.bool false)

/-- A world with three pages on the stack. -/
def threePages : World :=
  { onePage with pages := [{ route := "pages/index" }, { route := "pages/list" },
      { route := "pages/detail" }] }

/-- A world whose only page was opened with the query `x=%`. -/
def percentPage : World :=
  { onePage with pages := [{ route := "pages/index", options := [("x", "%")] }] }

/-- A world of three pages, the first opened with the query `x=%`. -/
def percentBelow : World :=
  { onePage with pages := [{ route := "pages/index", options := [("x", "%")] },
      { route := "pages/list" }, { route := "pages/detail" }] }

/-- A hook that calls `next` and then throws. -/
def nextThenThrow : Hook :=
  { id := 7, run := fun _ _ => { steps := [.callNext], thrown := some (.str "boom") } }

/-- A hook that calls `next` and returns. -/
def passHook : Hook :=
  { id := 1, run := fun _ _ => { steps := [.callNext], thrown := none } }

/-- A hook that registers an `afterNotNext` function and returns without
calling `next`. -/
def stopHook : Hook :=
  { id := 2, run := fun _ _ => { steps := [.setAfterNotNext (.fn 9 0)], thrown := none } }

/-- A hook that registers the `afterNotNext` function `13`, which throws,
and returns without calling `next`. -/
def stopThrowHook : Hook :=
  { id := 3, run := fun _ _ => { steps := [.setAfterNotNext (.fn 13 0)], thrown := none } }

/-- A mini-program host.  Its `resolve` keeps the target, as `url.resolve`
does for a target that starts with a slash; its `decodeURIComponent` is the
real one on the lone percent sign, which throws, and on texts without a
percent sign, which are kept.  Of the caller's functions, `13` throws, `4`
returns `5`, and the others return `undefined`; none touches the state. -/
def mpHost : Host :=
  { env := "mp-weixin"
    resolve := fun _ target => target
    decodeURIComponent := fun s => if s = "%" then .error .uriError else .ok s
    encodeURIComponent := fun s => s
    userFn := fun id _ w =>
      if id = 13 then (.error (.str "boom"), w)
      else if id = 4 then (.ok (.num (.int 5)), w)
      else (.ok .undefined, w) }

/-- No hooks registered. -/
def noHooks : Registry := { beforeEachFn := [], afterEachFn := [], onErrorFn := [] }

/-- A chain that stops at its second hook. -/
def stoppingHooks : Registry :=
  { beforeEachFn := [passHook, stopHook, passHook], afterEachFn := [], onErrorFn := [] }

/-- A chain that stops at its first hook, which leaves a throwing
`afterNotNext` function. -/
def throwingStop : Registry :=
  { beforeEachFn := [stopThrowHook], afterEachFn := [], onErrorFn := [] }

/-- A native function whose promise rejects, the page stack staying as it is. -/
def rejectingNative : Native :=
  { outcome := .rejects (.str "navigateTo:fail"), pagesAfter := [{ route := "pages/index" }] }

/-- A native function whose promise rejects with a `Symbol`. -/
def symbolNative : Native :=
  { outcome := .rejects (.symbol 0), pagesAfter := [{ route := "pages/index" }] }

/-- A native function that succeeds and pushes a page. -/
def pushingNative : Native :=
  { outcome := .resolves (.list [.null, .obj [("errMsg", "navigateTo:ok")]])
    pagesAfter := [{ route := "pages/index" }, { route := "pages/a" }] }

/-- A native function that has not answered yet: it calls nothing, and the
page stack is as it was. -/
def pendingNative : Native :=
  { outcome := .silent, pagesAfter := [{ route := "pages/index" }] }

/-- A callback-style payload with a `success` callback and no `fail`. -/
def successOnly : Payload :=
  { url := some "/pages/a", success := .user 3 }

/-- A callback-style payload with a `fail` callback. -/
def withFail : Payload :=
  { url := some "/pages/a", fail := .user 4 }

/-! ## `removeFn` -/

theorem indexOfFrom_of_not_mem {α : Type} [DecidableEq α] (l : List α) (x : α) (i : Nat)
    (h : x ∉ l) : indexOfFrom l x i = -1 := by
  induction l generalizing i with
  | nil => rfl
  | cons y ys ih =>
    simp only [List.mem_cons, not_or] at h
    have hne : ¬ y = x := fun e => h.1 e.symm
    simp [indexOfFrom, hne, ih (i + 1) h.2]

theorem indexOfFrom_of_mem {α : Type} [DecidableEq α] (l : List α) (x : α) (i : Nat)
    (h : x ∈ l) : indexOfFrom l x i = ((i + l.indexOf x : Nat) : Int) := by
  induction l generalizing i with
  | nil => simp at h
  | cons y ys ih =>
    by_cases hyx : y = x
    · subst hyx
      simp [indexOfFrom]
    · have hx : x ∈ ys := by
        rcases List.mem_cons.mp h with e | e
        · exact absurd e.symm hyx
        · exact e
      have hne : ¬ x = y := fun e => hyx e.symm
      simp only [indexOfFrom, hyx, if_false, ih (i + 1) hx]
      rw [List.indexOf_cons_ne _ hyx]
      congr 1
      omega

/-- Removing a registered function removes its first occurrence only. -/
theorem removeFn_of_mem {α : Type} [DecidableEq α] (fnList : List α) (fn : α)
    (h : fn ∈ fnList) : removeFn fnList fn = fnList.erase fn := by
  have hlt : fnList.indexOf fn < fnList.length := List.indexOf_lt_length.mpr h
  have e : removeFn fnList fn = fnList.eraseIdx (fnList.indexOf fn) := by
    unfold removeFn splice indexOf
    rw [indexOfFrom_of_mem fnList fn 0 h]
    simp only [Nat.zero_add]
    have h1 : ¬ ((fnList.indexOf fn : Nat) : Int) < 0 := by omega
    have h2 : (min ((fnList.indexOf fn : Nat) : Int) (fnList.length : Int)).toNat
        = fnList.indexOf fn := by omega
    simp only [h1, if_false, h2]
    have h3 : (min (max (1 : Int) 0) ((fnList.length : Int) - (fnList.indexOf fn : Nat))).toNat
        = 1 := by omega
    rw [h3, List.eraseIdx_eq_take_drop_succ]
  rw [e, List.eraseIdx_indexOf_eq_erase]

/-- Removing a function that is not registered removes the last entry. -/
theorem removeFn_of_not_mem {α : Type} [DecidableEq α] (fnList : List α) (fn : α)
    (h : fn ∉ fnList) : removeFn fnList fn = fnList.dropLast := by
  unfold removeFn splice indexOf
  rw [indexOfFrom_of_not_mem fnList fn 0 h]
  rcases Nat.eq_zero_or_pos fnList.length with h0 | hpos
  · have : fnList = [] := List.length_eq_zero.mp h0
    subst this
    rfl
  · have h1 : ((-1 : Int) < 0) := by omega
    have h2 : (max ((fnList.length : Int) + -1) 0).toNat = fnList.length - 1 := by omega
    simp only [h1, if_true, h2]
    have h3 : (min (max (1 : Int) 0)
        ((fnList.length : Int) - ((fnList.length - 1 : Nat) : Int))).toNat = 1 := by omega
    rw [h3]
    have h4 : fnList.length - 1 + 1 = fnList.length := by omega
    rw [h4, List.drop_length, List.append_nil, List.dropLast_eq_take]

/-- Claim C5, at an input where it fails: with `f1, f2` registered, removing
the unregistered `f3` removes `f2` instead of leaving the list as it is. -/
theorem removeFn_unregistered_removes_last :
    removeFn ([1, 2] : List Nat) 3 = [1] := by
  decide

/-! ## `getParams` -/

/-- Claim C6: `getParams (paramsName)` returns the stored value, sets that
property to `null`, leaves every other property and the rest of the state as
they were, and a second call returns `null`. -/
theorem getParams_reads_and_clears (w : World) (paramsName : String) :
    (getParams paramsName w).1 = w.routerStatus paramsName
    ∧ (getParams paramsName w).2.routerStatus paramsName = .null
    ∧ (∀ k, k ≠ paramsName → (getParams paramsName w).2.routerStatus k = w.routerStatus k)
    ∧ (getParams paramsName w).2.waitJumpSucc = w.waitJumpSucc
    ∧ (getParams paramsName w).2.pages = w.pages
    ∧ (getParams paramsName w).2.trace = w.trace
    ∧ (getParams paramsName (getParams paramsName w).2).1 = .null
    ∧ (getParams paramsName w).2.seen = w.seen := by
  refine ⟨rfl, ?_, ?_, rfl, rfl, rfl, ?_, rfl⟩
  · simp [getParams, World.set]
  · intro k hk
    simp [getParams, World.set, hk]
  · simp [getParams, World.set]

/-! ## `callWithNext` -/

@[simp] theorem set_trace (w : World) (k : String) (v : Val) : (w.set k v).trace = w.trace := rfl

@[simp] theorem set_pages (w : World) (k : String) (v : Val) : (w.set k v).pages = w.pages := rfl

@[simp] theorem set_seen (w : World) (k : String) (v : Val) : (w.set k v).seen = w.seen := rfl

@[simp] theorem set_waitJumpSucc (w : World) (k : String) (v : Val) :
    (w.set k v).waitJumpSucc = w.waitJumpSucc := rfl

@[simp] theorem set_same (w : World) (k : String) (v : Val) :
    (w.set k v).routerStatus k = v := by
  simp [World.set]

theorem set_other (w : World) (k k' : String) (v : Val) (h : k' ≠ k) :
    (w.set k v).routerStatus k' = w.routerStatus k' := by
  simp [World.set, h]

@[simp] theorem log_trace (w : World) (e : Event) : (w.log e).trace = w.trace ++ [e] := rfl

@[simp] theorem log_seen (w : World) (e : Event) :
    (w.log e).seen = w.seen ++ [(e, truthy (w.routerStatus "allowAction"))] := rfl

@[simp] theorem log_pages (w : World) (e : Event) : (w.log e).pages = w.pages := rfl

@[simp] theorem log_waitJumpSucc (w : World) (e : Event) :
    (w.log e).waitJumpSucc = w.waitJumpSucc := rfl

@[simp] theorem log_routerStatus (w : World) (e : Event) :
    (w.log e).routerStatus = w.routerStatus := rfl

@[simp] theorem setWait_trace (w : World) (b : Bool) : (w.setWait b).trace = w.trace := rfl

@[simp] theorem setWait_seen (w : World) (b : Bool) : (w.setWait b).seen = w.seen := rfl

@[simp] theorem setWait_pages (w : World) (b : Bool) : (w.setWait b).pages = w.pages := rfl

@[simp] theorem setWait_routerStatus (w : World) (b : Bool) :
    (w.setWait b).routerStatus = w.routerStatus := rfl

@[simp] theorem setWait_waitJumpSucc (w : World) (b : Bool) : (w.setWait b).waitJumpSucc = b := rfl

@[simp] theorem setPages_trace (w : World) (ps : List Page) : (w.setPages ps).trace = w.trace := rfl

@[simp] theorem setPages_seen (w : World) (ps : List Page) : (w.setPages ps).seen = w.seen := rfl

@[simp] theorem setPages_pages (w : World) (ps : List Page) : (w.setPages ps).pages = ps := rfl

@[simp] theorem setPages_routerStatus (w : World) (ps : List Page) :
    (w.setPages ps).routerStatus = w.routerStatus := rfl

@[simp] theorem setPages_waitJumpSucc (w : World) (ps : List Page) :
    (w.setPages ps).waitJumpSucc = w.waitJumpSucc := rfl

theorem runSteps_stop (steps : List HookStep) (stop : Bool) (w : World) :
    (runSteps steps stop w).1 = (stop && !decide (HookStep.callNext ∈ steps)) := by
  induction steps generalizing stop w with
  | nil => simp [runSteps]
  | cons s rest ih =>
    cases s with
    | callNext => simp [runSteps, ih]
    | setAfterNotNext v => simp [runSteps, ih]

theorem runSteps_trace (steps : List HookStep) (stop : Bool) (w : World) :
    (runSteps steps stop w).2.trace = w.trace := by
  induction steps generalizing stop w with
  | nil => rfl
  | cons s rest ih =>
    cases s with
    | callNext => simp [runSteps, ih]
    | setAfterNotNext v => simp [runSteps, ih]

theorem runSteps_pages (steps : List HookStep) (stop : Bool) (w : World) :
    (runSteps steps stop w).2.pages = w.pages := by
  induction steps generalizing stop w with
  | nil => rfl
  | cons s rest ih =>
    cases s with
    | callNext => simp [runSteps, ih]
    | setAfterNotNext v => simp [runSteps, ih]

theorem runSteps_waitJumpSucc (steps : List HookStep) (stop : Bool) (w : World) :
    (runSteps steps stop w).2.waitJumpSucc = w.waitJumpSucc := by
  induction steps generalizing stop w with
  | nil => rfl
  | cons s rest ih =>
    cases s with
    | callNext => simp [runSteps, ih]
    | setAfterNotNext v => simp [runSteps, ih]

theorem runSteps_status (steps : List HookStep) (stop : Bool) (w : World) (k : String)
    (hk : k ≠ "afterNotNext") :
    (runSteps steps stop w).2.routerStatus k = w.routerStatus k := by
  induction steps generalizing stop w with
  | nil => rfl
  | cons s rest ih =>
    cases s with
    | callNext => simp [runSteps, ih, set_other _ _ _ _ hk]
    | setAfterNotNext v => simp [runSteps, ih, set_other _ _ _ _ hk]

/-- One step of the chain, by what the first hook does. -/
theorem callWithNext_cons (fn : Hook) (rest : List Hook) (to_ from_ : Val) (w : World) :
    callWithNext (fn :: rest) to_ from_ w =
      match (fn.run to_ from_).thrown with
      | some e =>
        (.error e,
          (runSteps (fn.run to_ from_).steps true (w.log (.calledWithNext fn.id to_ from_))).2)
      | none =>
        if (runSteps (fn.run to_ from_).steps true
            (w.log (.calledWithNext fn.id to_ from_))).1 then
          (.ok false,
            (runSteps (fn.run to_ from_).steps true (w.log (.calledWithNext fn.id to_ from_))).2)
        else
          callWithNext rest to_ from_
            (runSteps (fn.run to_ from_).steps true (w.log (.calledWithNext fn.id to_ from_))).2 :=
  rfl

/-- The chain after a run of hooks that all call `next` and return. -/
theorem callWithNext_append (pre post : List Hook) (to_ from_ : Val) (w : World)
    (hpre : ∀ g ∈ pre, g.callsNext to_ from_ ∧ g.finishes to_ from_) :
    ∃ w1, w1.trace = w.trace ++ hookEvents pre to_ from_
      ∧ callWithNext (pre ++ post) to_ from_ w = callWithNext post to_ from_ w1 := by
  induction pre generalizing w with
  | nil => exact ⟨w, by simp [hookEvents], rfl⟩
  | cons g gs ih =>
    have hg := hpre g (List.mem_cons_self _ _)
    have hgs : ∀ g' ∈ gs, g'.callsNext to_ from_ ∧ g'.finishes to_ from_ :=
      fun g' hg' => hpre g' (List.mem_cons_of_mem _ hg')
    obtain ⟨w1, ht, he⟩ := ih
      (runSteps (g.run to_ from_).steps true (w.log (.calledWithNext g.id to_ from_))).2 hgs
    refine ⟨w1, ?_, ?_⟩
    · rw [ht, runSteps_trace]
      simp [hookEvents]
    · have h1 : (g.run to_ from_).thrown = none := hg.2
      have h2 : HookStep.callNext ∈ (g.run to_ from_).steps := hg.1
      rw [List.cons_append, callWithNext_cons, h1]
      simp only [runSteps_stop, h2, decide_True, Bool.not_true, Bool.and_false]
      exact he

/-- The chain stops at the first hook that returns without calling `next`. -/
theorem callWithNext_stops (fnList : List Hook) (to_ from_ : Val) (w : World)
    (pre : List Hook) (h : Hook) (post : List Hook) (hl : fnList = pre ++ h :: post)
    (hpre : ∀ g ∈ pre, g.callsNext to_ from_ ∧ g.finishes to_ from_)
    (hf : h.finishes to_ from_) (hn : ¬ h.callsNext to_ from_) :
    (callWithNext fnList to_ from_ w).1 = .ok false
    ∧ (callWithNext fnList to_ from_ w).2.trace
        = w.trace ++ hookEvents (pre ++ [h]) to_ from_ := by
  obtain ⟨w1, ht, he⟩ := callWithNext_append pre (h :: post) to_ from_ w hpre
  subst hl
  rw [he, callWithNext_cons]
  have hf' : (h.run to_ from_).thrown = none := hf
  have hn' : ¬ HookStep.callNext ∈ (h.run to_ from_).steps := hn
  rw [hf']
  simp only [runSteps_stop, hn', decide_False, Bool.not_false, Bool.and_true, if_true]
  simp [runSteps_trace, ht, hookEvents]

/-- The chain rejects at the first hook that throws. -/
theorem callWithNext_throws (fnList : List Hook) (to_ from_ : Val) (w : World)
    (pre : List Hook) (h : Hook) (post : List Hook) (e : Val)
    (hl : fnList = pre ++ h :: post)
    (hpre : ∀ g ∈ pre, g.callsNext to_ from_ ∧ g.finishes to_ from_)
    (he' : (h.run to_ from_).thrown = some e) :
    (callWithNext fnList to_ from_ w).1 = .error e
    ∧ (callWithNext fnList to_ from_ w).2.trace
        = w.trace ++ hookEvents (pre ++ [h]) to_ from_ := by
  obtain ⟨w1, ht, he⟩ := callWithNext_append pre (h :: post) to_ from_ w hpre
  subst hl
  rw [he, callWithNext_cons, he']
  simp [runSteps_trace, ht, hookEvents]

/-- Claim C1, amended: `callWithNext` invokes a leading part of the list in
order, each hook with `(to, from, next)`; it resolves to `true` exactly when
every hook called `next` during its run and returned without throwing, all
hooks having been invoked then; a hook that returns without having called
`next` makes it resolve to `false`, and a hook that throws makes it reject
with the thrown value, and in both cases no later hook is invoked. -/
theorem callWithNext_chain (fnList : List Hook) (to_ from_ : Val) (w : World) :
    (∃ k, k ≤ fnList.length ∧
      (callWithNext fnList to_ from_ w).2.trace = w.trace ++ hookEvents (fnList.take k) to_ from_)
    ∧ ((callWithNext fnList to_ from_ w).1 = .ok true ↔
        ∀ h ∈ fnList, h.callsNext to_ from_ ∧ h.finishes to_ from_)
    ∧ ((callWithNext fnList to_ from_ w).1 = .ok true →
        (callWithNext fnList to_ from_ w).2.trace = w.trace ++ hookEvents fnList to_ from_)
    ∧ (∀ pre h post, fnList = pre ++ h :: post →
        (∀ g ∈ pre, g.callsNext to_ from_ ∧ g.finishes to_ from_) →
        (h.finishes to_ from_ ∧ ¬ h.callsNext to_ from_ →
          (callWithNext fnList to_ from_ w).1 = .ok false
          ∧ (callWithNext fnList to_ from_ w).2.trace
              = w.trace ++ hookEvents (pre ++ [h]) to_ from_)
        ∧ (∀ e, (h.run to_ from_).thrown = some e →
          (callWithNext fnList to_ from_ w).1 = .error e
          ∧ (callWithNext fnList to_ from_ w).2.trace
              = w.trace ++ hookEvents (pre ++ [h]) to_ from_)) := by
  refine ⟨?_, ?_, ?_, ?_⟩
  · induction fnList generalizing w with
    | nil => exact ⟨0, le_refl _, by simp [callWithNext, hookEvents]⟩
    | cons g gs ih =>
      rw [callWithNext_cons]
      cases hth : (g.run to_ from_).thrown with
      | some e =>
        exact ⟨1, by simp, by simp [runSteps_trace, hookEvents]⟩
      | none =>
        by_cases hs : (runSteps (g.run to_ from_).steps true
            (w.log (.calledWithNext g.id to_ from_))).1 = true
        · rw [if_pos hs]
          exact ⟨1, by simp, by simp [runSteps_trace, hookEvents]⟩
        · rw [if_neg hs]
          obtain ⟨k, hk, ht⟩ := ih
            (runSteps (g.run to_ from_).steps true (w.log (.calledWithNext g.id to_ from_))).2
          refine ⟨k + 1, by simpa using hk, ?_⟩
          rw [ht, runSteps_trace]
          simp [hookEvents]
  · induction fnList generalizing w with
    | nil => simp [callWithNext]
    | cons g gs ih =>
      rw [callWithNext_cons]
      cases hth : (g.run to_ from_).thrown with
      | some e =>
        simp [Hook.finishes, hth]
      | none =>
        by_cases hc : HookStep.callNext ∈ (g.run to_ from_).steps
        · simp only [runSteps_stop, hc, decide_True, Bool.not_true, Bool.and_false]
          simp only [Bool.false_eq_true, if_false, ih, List.forall_mem_cons]
          simp [Hook.callsNext, Hook.finishes, hc, hth]
        · simp only [runSteps_stop, hc, decide_False, Bool.not_false, Bool.and_true, if_true]
          simp [Hook.callsNext, hc]
  · induction fnList generalizing w with
    | nil => simp [callWithNext, hookEvents]
    | cons g gs ih =>
      rw [callWithNext_cons]
      cases hth : (g.run to_ from_).thrown with
      | some e => simp
      | none =>
        by_cases hc : HookStep.callNext ∈ (g.run to_ from_).steps
        · simp only [runSteps_stop, hc, decide_True, Bool.not_true, Bool.and_false]
          simp only [Bool.false_eq_true, if_false]
          intro hr
          rw [ih _ hr, runSteps_trace]
          simp [hookEvents]
        · simp [runSteps_stop, hc]
  · intro pre h post hl hpre
    exact ⟨fun hh => callWithNext_stops fnList to_ from_ w pre h post hl hpre hh.1 hh.2,
      fun e he => callWithNext_throws fnList to_ from_ w pre h post e hl hpre he⟩

/-- Claim C1 as stated fails: a single hook that calls `next` and then
throws has called `next` during its run, yet `callWithNext` does not resolve
to `true`; it rejects. -/
theorem callWithNext_not_iff_called_next :
    ¬ ((callWithNext [nextThenThrow] .null .null onePage).1 = .ok true ↔
        ∀ h ∈ [nextThenThrow], h.callsNext .null .null) := by
  intro hiff
  have hall : ∀ h ∈ [nextThenThrow], h.callsNext .null .null := by
    intro h hh
    rw [List.mem_singleton] at hh
    subst hh
    simp [Hook.callsNext, nextThenThrow]
  have hres := hiff.mpr hall
  revert hres
  decide

/-! ## Counting calls -/

theorem nativeCalls_append (l1 l2 : List Event) :
    nativeCalls (l1 ++ l2) = nativeCalls l1 + nativeCalls l2 := by
  simp [nativeCalls, List.countP_append]

theorem guardCalls_append (l1 l2 : List Event) :
    guardCalls (l1 ++ l2) = guardCalls l1 + guardCalls l2 := by
  simp [guardCalls, List.countP_append]

theorem openCalls_append (l1 l2 : List (Event × Bool)) :
    openCalls (l1 ++ l2) = openCalls l1 + openCalls l2 := by
  simp [openCalls, List.countP_append]

theorem nativeCalls_hookEvents (fnList : List Hook) (to_ from_ : Val) :
    nativeCalls (hookEvents fnList to_ from_) = 0 := by
  induction fnList with
  | nil => rfl
  | cons g gs ih =>
    simp only [hookEvents, List.map_cons, nativeCalls] at ih ⊢
    rw [List.countP_cons, ih]
    rfl

theorem SameCalls.refl (w : World) : SameCalls w w := ⟨rfl, rfl, rfl⟩

theorem SameCalls.trans {w w1 w2 : World} (h1 : SameCalls w w1) (h2 : SameCalls w1 w2) :
    SameCalls w w2 :=
  ⟨h2.native.trans h1.native, h2.guard.trans h1.guard, h2.opened.trans h1.opened⟩

theorem SameCalls.of_eq {w w1 : World} (ht : w1.trace = w.trace) (hs : w1.seen = w.seen) :
    SameCalls w w1 :=
  ⟨by rw [ht], by rw [ht], by rw [hs]⟩

/-- Recording a call that is neither native nor of a hook with `next`. -/
theorem SameCalls.log (w : World) (e : Event) (hn : e.isNative = false)
    (hg : e.isHookWithNext = false) : SameCalls w (w.log e) := by
  refine ⟨?_, ?_, ?_⟩
  · simp [nativeCalls_append, nativeCalls, hn]
  · simp [guardCalls_append, guardCalls, hg]
  · simp [openCalls_append, openCalls, isOpenCall, hn, hg]

theorem runSteps_seen (steps : List HookStep) (stop : Bool) (w : World) :
    (runSteps steps stop w).2.seen = w.seen := by
  induction steps generalizing stop w with
  | nil => rfl
  | cons s rest ih =>
    cases s with
    | callNext => simp [runSteps, ih]
    | setAfterNotNext v => simp [runSteps, ih]

theorem callWithNext_trace (fnList : List Hook) (to_ from_ : Val) (w : World) :
    ∃ k, k ≤ fnList.length ∧
      (callWithNext fnList to_ from_ w).2.trace
        = w.trace ++ hookEvents (fnList.take k) to_ from_ := by
  induction fnList generalizing w with
  | nil => exact ⟨0, le_refl _, by simp [callWithNext, hookEvents]⟩
  | cons g gs ih =>
    rw [callWithNext_cons]
    cases hth : (g.run to_ from_).thrown with
    | some e =>
      exact ⟨1, by simp, by simp [runSteps_trace, hookEvents]⟩
    | none =>
      by_cases hs : (runSteps (g.run to_ from_).steps true
          (w.log (.calledWithNext g.id to_ from_))).1 = true
      · rw [if_pos hs]
        exact ⟨1, by simp, by simp [runSteps_trace, hookEvents]⟩
      · rw [if_neg hs]
        obtain ⟨k, hk, ht⟩ := ih
          (runSteps (g.run to_ from_).steps true (w.log (.calledWithNext g.id to_ from_))).2
        refine ⟨k + 1, by simpa using hk, ?_⟩
        rw [ht, runSteps_trace]
        simp [hookEvents]

theorem callWithNext_pages (fnList : List Hook) (to_ from_ : Val) (w : World) :
    (callWithNext fnList to_ from_ w).2.pages = w.pages := by
  induction fnList generalizing w with
  | nil => rfl
  | cons g gs ih =>
    rw [callWithNext_cons]
    cases hth : (g.run to_ from_).thrown with
    | some e => simp [runSteps_pages]
    | none =>
      dsimp only
      split
      · simp [runSteps_pages]
      · rw [ih, runSteps_pages]
        rfl

theorem callWithNext_status (fnList : List Hook) (to_ from_ : Val) (w : World) (k : String)
    (hk : k ≠ "afterNotNext") :
    (callWithNext fnList to_ from_ w).2.routerStatus k = w.routerStatus k := by
  induction fnList generalizing w with
  | nil => rfl
  | cons g gs ih =>
    rw [callWithNext_cons]
    cases hth : (g.run to_ from_).thrown with
    | some e => simp [runSteps_status _ _ _ _ hk]
    | none =>
      dsimp only
      split
      · simp [runSteps_status _ _ _ _ hk]
      · rw [ih, runSteps_status _ _ _ _ hk]
        rfl

theorem callWithNext_nativeCalls (fnList : List Hook) (to_ from_ : Val) (w : World) :
    nativeCalls (callWithNext fnList to_ from_ w).2.trace = nativeCalls w.trace := by
  obtain ⟨k, _, ht⟩ := callWithNext_trace fnList to_ from_ w
  rw [ht, nativeCalls_append, nativeCalls_hookEvents]
  rfl

/-- Hooks called while the debounce is closed are recorded as such. -/
theorem callWithNext_openCalls (fnList : List Hook) (to_ from_ : Val) (w : World)
    (hc : truthy (w.routerStatus "allowAction") = false) :
    openCalls (callWithNext fnList to_ from_ w).2.seen = openCalls w.seen := by
  induction fnList generalizing w with
  | nil => rfl
  | cons g gs ih =>
    have hseen : (runSteps (g.run to_ from_).steps true
        (w.log (.calledWithNext g.id to_ from_))).2.seen
        = w.seen ++ [(.calledWithNext g.id to_ from_, false)] := by
      rw [runSteps_seen, log_seen, hc]
    have hopen : openCalls (w.seen ++ [(Event.calledWithNext g.id to_ from_, false)])
        = openCalls w.seen := by
      simp [openCalls_append, openCalls, isOpenCall]
    have hflag : truthy ((runSteps (g.run to_ from_).steps true
        (w.log (.calledWithNext g.id to_ from_))).2.routerStatus "allowAction") = false := by
      rw [runSteps_status _ _ _ _ (by decide)]
      exact hc
    rw [callWithNext_cons]
    cases hth : (g.run to_ from_).thrown with
    | some e =>
      simp only
      rw [hseen, hopen]
    | none =>
      dsimp only
      split
      · rw [hseen, hopen]
      · rw [ih _ hflag, hseen, hopen]

theorem runStepsPlain_trace (steps : List HookStep) (w : World) :
    (runStepsPlain steps w).2.trace = w.trace := by
  induction steps generalizing w with
  | nil => rfl
  | cons s rest ih =>
    cases s with
    | callNext => rfl
    | setAfterNotNext v => simp [runStepsPlain, ih]

theorem runStepsPlain_seen (steps : List HookStep) (w : World) :
    (runStepsPlain steps w).2.seen = w.seen := by
  induction steps generalizing w with
  | nil => rfl
  | cons s rest ih =>
    cases s with
    | callNext => rfl
    | setAfterNotNext v => simp [runStepsPlain, ih]

theorem runStepsPlain_status (steps : List HookStep) (w : World) (k : String)
    (hk : k ≠ "afterNotNext") :
    (runStepsPlain steps w).2.routerStatus k = w.routerStatus k := by
  induction steps generalizing w with
  | nil => rfl
  | cons s rest ih =>
    cases s with
    | callNext => rfl
    | setAfterNotNext v => simp [runStepsPlain, ih, set_other _ _ _ _ hk]

/-- One step of a chain without `next`. -/
theorem callWithoutNext_cons (fn : Hook) (rest : List Hook) (to_ from_ : Val) (w : World) :
    callWithoutNext (fn :: rest) to_ from_ w =
      match runStepsPlain (fn.run to_ from_).steps (w.log (.calledWithoutNext fn.id to_ from_)) with
      | (.error e, w1) =>
        if (fn.run to_ from_).isAsync then callWithoutNext rest to_ from_ w1 else (.error e, w1)
      | (.ok _, w1) =>
        match (fn.run to_ from_).thrown with
        | some e =>
          if (fn.run to_ from_).isAsync then callWithoutNext rest to_ from_ w1
          else (.error e, w1)
        | none => callWithoutNext rest to_ from_ w1 :=
  rfl

theorem callWithoutNext_sameCalls (fnList : List Hook) (to_ from_ : Val) (w : World) :
    SameCalls w (callWithoutNext fnList to_ from_ w).2 := by
  induction fnList generalizing w with
  | nil => exact SameCalls.refl w
  | cons g gs ih =>
    rw [callWithoutNext_cons]
    have hbase : SameCalls w (runStepsPlain (g.run to_ from_).steps
        (w.log (.calledWithoutNext g.id to_ from_))).2 :=
      (SameCalls.log w (.calledWithoutNext g.id to_ from_) rfl rfl).trans
        (SameCalls.of_eq (runStepsPlain_trace _ _) (runStepsPlain_seen _ _))
    cases hr : runStepsPlain (g.run to_ from_).steps
        (w.log (.calledWithoutNext g.id to_ from_)) with
    | mk res w1 =>
      rw [hr] at hbase
      cases res with
      | error e =>
        dsimp only
        split
        · exact hbase.trans (ih w1)
        · exact hbase
      | ok u =>
        cases hth : (g.run to_ from_).thrown with
        | some e =>
          dsimp only
          split
          · exact hbase.trans (ih w1)
          · exact hbase
        | none => exact hbase.trans (ih w1)

theorem callWithoutNext_status (fnList : List Hook) (to_ from_ : Val) (w : World)
    (k : String) (hk : k ≠ "afterNotNext") :
    (callWithoutNext fnList to_ from_ w).2.routerStatus k = w.routerStatus k := by
  induction fnList generalizing w with
  | nil => rfl
  | cons g gs ih =>
    rw [callWithoutNext_cons]
    have ht := runStepsPlain_status (g.run to_ from_).steps
      (w.log (.calledWithoutNext g.id to_ from_)) k hk
    cases hr : runStepsPlain (g.run to_ from_).steps
        (w.log (.calledWithoutNext g.id to_ from_)) with
    | mk res w1 =>
      rw [hr] at ht
      simp only [log_routerStatus] at ht
      cases res with
      | error e =>
        dsimp only
        split
        · rw [ih, ht]
        · exact ht
      | ok u =>
        cases hth : (g.run to_ from_).thrown with
        | some e =>
          dsimp only
          split
          · rw [ih, ht]
          · exact ht
        | none =>
          dsimp only
          rw [ih, ht]

theorem passParams_trace (page : Page) (w : World) : (passParams page w).trace = w.trace := by
  unfold passParams
  dsimp only
  split <;> split <;> (try split) <;> rfl

theorem passParams_seen (page : Page) (w : World) : (passParams page w).seen = w.seen := by
  unfold passParams
  dsimp only
  split <;> split <;> (try split) <;> rfl

theorem watchAllowAction_trace (w : World) : (watchAllowAction w).trace = w.trace := by
  unfold watchAllowAction
  split <;> rfl

theorem watchAllowAction_seen (w : World) : (watchAllowAction w).seen = w.seen := by
  unfold watchAllowAction
  split <;> rfl

theorem afterJump_sameCalls (host : Host) (reg : Registry) (to_ : Val) (from_ : World → Val)
    (w : World) : SameCalls w (afterJump host reg to_ from_ w).2 := by
  have h0 : SameCalls w (watchAllowAction w) :=
    SameCalls.of_eq (watchAllowAction_trace w) (watchAllowAction_seen w)
  unfold afterJump
  dsimp only
  split
  · exact h0
  · rename_i page _
    have h1 : SameCalls w (passParams page (watchAllowAction w)) :=
      h0.trans (SameCalls.of_eq (passParams_trace _ _) (passParams_seen _ _))
    have h := h1.trans (callWithoutNext_sameCalls reg.afterEachFn to_
      (from_ (passParams page (watchAllowAction w))) (passParams page (watchAllowAction w)))
    split
    · rename_i e w3 heq
      rw [heq] at h
      exact h
    · rename_i u w3 heq
      rw [heq] at h
      split
      · exact h
      · exact h.trans (SameCalls.of_eq rfl rfl)

theorem getAsyncResultTry_sameCalls (host : Host) (reg : Registry) (result : Except Val Res)
    (to_ from_ : Val) (jumpType : String) (w : World) :
    SameCalls w (getAsyncResultTry host reg result to_ from_ jumpType w).2 := by
  unfold getAsyncResultTry
  split
  · exact SameCalls.refl w
  · split
    · exact SameCalls.refl w
    · have h := (@SameCalls.of_eq w (w.set "allowAction" (.bool true)) rfl rfl).trans
        (callWithoutNext_sameCalls reg.onErrorFn to_ from_ (w.set "allowAction" (.bool true)))
      split
      · rename_i e w1 heq
        rw [heq] at h
        exact h
      · rename_i u w1 heq
        rw [heq] at h
        exact h
    · split
      · exact SameCalls.of_eq (watchAllowAction_trace w) (watchAllowAction_seen w)
      · split
        · have h := afterJump_sameCalls host reg to_ (fun _ => from_) w
          split
          · rename_i e w1 heq
            rw [heq] at h
            exact h
          · rename_i u w1 heq
            rw [heq] at h
            exact h
        · exact SameCalls.refl w

theorem getAsyncResult_sameCalls (host : Host) (reg : Registry) (result : Except Val Res)
    (to_ from_ : Val) (jumpType : String) (w : World) :
    SameCalls w (getAsyncResult host reg result to_ from_ jumpType w).2 := by
  have h := getAsyncResultTry_sameCalls host reg result to_ from_ jumpType w
  unfold getAsyncResult
  split
  · rename_i r w1 heq
    rw [heq] at h
    exact h
  · rename_i e w1 heq
    rw [heq] at h
    exact h

/-- A guarded call of a payload property calls neither the native function
nor a hook with `next`, the caller's functions not doing so. -/
theorem callCallback_sameCalls (host : Host) (reg : Registry) (hq : UserQuiet host)
    (cb : Callback) (arg : Val) (w : World) :
    SameCalls w (callCallback host reg cb arg w).2 := by
  induction cb generalizing w with
  | absent => exact SameCalls.refl w
  | nonFunction => exact SameCalls.refl w
  | user id =>
    exact (SameCalls.log w (.callback id arg) rfl rfl).trans (hq id arg _)
  | failWrapper fail to_ apn ih =>
    unfold callCallback
    have h := (@SameCalls.of_eq w (w.set "allowAction" (.bool true)) rfl rfl).trans
      (callWithoutNext_sameCalls reg.onErrorFn to_
        (fromOf host apn (w.set "allowAction" (.bool true))) (w.set "allowAction" (.bool true)))
    split
    · rename_i e w2 heq
      rw [heq] at h
      exact h
    · rename_i u w2 heq
      rw [heq] at h
      exact h.trans (ih w2)
  | reLaunchWrapper success ih =>
    unfold callCallback
    exact (SameCalls.of_eq (watchAllowAction_trace w) (watchAllowAction_seen w)).trans (ih _)
  | backWrapper success to_ apn ih =>
    unfold callCallback
    have h := afterJump_sameCalls host reg to_ (fromOf host apn) w
    split
    · rename_i e w1 heq
      rw [heq] at h
      exact h
    · rename_i u w1 heq
      rw [heq] at h
      exact h.trans (ih w1)

theorem callAfterNotNext_sameCalls (host : Host) (hq : UserQuiet host) (w : World) :
    SameCalls w (callAfterNotNext host w).2 := by
  unfold callAfterNotNext
  dsimp only
  split
  · rename_i id arity _
    have h := (@SameCalls.of_eq w (w.set "afterNotNext" .null) rfl rfl).trans
      ((SameCalls.log (w.set "afterNotNext" .null) (.ranAfterNotNext id) rfl rfl).trans
        (hq id .undefined _))
    split
    · rename_i u w2 heq
      rw [heq] at h
      exact h
    · rename_i e w2 heq
      rw [heq] at h
      exact h
  · exact SameCalls.of_eq rfl rfl

theorem nativeCallbacks_sameCalls (host : Host) (reg : Registry) (hq : UserQuiet host)
    (native : Native) (payload : Payload) (w : World) :
    SameCalls w (nativeCallbacks host reg native payload w) := by
  unfold nativeCallbacks
  split
  · exact callCallback_sameCalls host reg hq _ _ w
  · exact callCallback_sameCalls host reg hq _ _ w
  · exact SameCalls.refl w

theorem extractParams_trace (payload : Payload) (k : String) (w : World) :
    (extractParams payload k w).trace = w.trace := by
  unfold extractParams
  split <;> rfl

theorem extractParams_seen (payload : Payload) (k : String) (w : World) :
    (extractParams payload k w).seen = w.seen := by
  unfold extractParams
  split <;> rfl

theorem extractParams_status (payload : Payload) (k k' : String) (w : World)
    (h : k' ≠ k) : (extractParams payload k w).routerStatus k' = w.routerStatus k' := by
  unfold extractParams
  split
  · exact set_other _ _ _ _ h
  · rfl

theorem enterNative_nativeCalls (native : Native) (payload : Payload) (w : World) :
    nativeCalls (enterNative native payload w).trace = nativeCalls w.trace + 1 := by
  simp [enterNative, extractParams_trace, nativeCalls_append, nativeCalls, Event.isNative]

/-- Entering the native function while the debounce is closed is recorded
as such. -/
theorem enterNative_openCalls (native : Native) (payload : Payload) (w : World)
    (hc : truthy (w.routerStatus "allowAction") = false) :
    openCalls (enterNative native payload w).seen = openCalls w.seen := by
  have hflag : truthy ((extractParams payload "passedParams"
      (extractParams payload "routeParams" w)).routerStatus "allowAction") = false := by
    rw [extractParams_status _ _ _ _ (by decide), extractParams_status _ _ _ _ (by decide)]
    exact hc
  simp [enterNative, extractParams_seen, openCalls_append, openCalls, isOpenCall, hflag]
/-! ## The synchronous part of `intercept` -/

theorem getNowPage_of_pages_ne_nil (w : World) (h : w.pages ≠ []) :
    ∃ page, getNowPage w = some page := by
  unfold getNowPage
  cases hl : w.pages.getLast? with
  | none => exact absurd (List.getLast?_eq_none_iff.mp hl) h
  | some page => exact ⟨page, rfl⟩

theorem getNowUrl_of_pages_ne_nil (w : World) (h : w.pages ≠ []) :
    ∃ page, getNowPage w = some page ∧ getNowUrl w = .ok page.route := by
  obtain ⟨page, hp⟩ := getNowPage_of_pages_ne_nil w h
  exact ⟨page, hp, by simp [getNowUrl, hp]⟩

theorem Quiet.same (w : World) : Quiet w w := ⟨rfl, rfl, rfl, rfl⟩

theorem Quiet.andThen {w w1 w2 : World} (h1 : Quiet w w1) (h2 : Quiet w1 w2) : Quiet w w2 :=
  ⟨h2.trace.trans h1.trace, h2.seen.trans h1.seen, h2.pages.trans h1.pages,
    h2.allow.trans h1.allow⟩

theorem quiet_set (w : World) (k : String) (v : Val) (hk : k ≠ "allowAction") :
    Quiet w (w.set k v) :=
  ⟨rfl, rfl, rfl, set_other w k "allowAction" v (fun e => hk e.symm)⟩

theorem setNavigateBack_quiet (i : Num) (w w1 : World) (h : setNavigateBack i w = .ok w1) :
    Quiet w w1 := by
  unfold setNavigateBack at h
  split at h
  · injection h with h
    subst h
    exact quiet_set _ _ _ (by decide)
  · cases h

theorem setSwitchTab_quiet (u : String) (w w1 : World) (h : setSwitchTab u w = .ok w1) :
    Quiet w w1 := by
  unfold setSwitchTab at h
  split at h
  · injection h with h
    subst h
    exact quiet_set _ _ _ (by decide)
  · cases h

theorem backTarget_quiet (host : Host) (payload : Payload) (w : World) :
    Quiet w (backTarget host payload w).2 := by
  unfold backTarget
  split
  · exact Quiet.same w
  · rename_i w1 hs
    have hq := setNavigateBack_quiet _ _ _ hs
    split
    · exact hq
    · split
      · exact hq
      · exact hq

/-- The synchronous part on an unreadable page stack. -/
theorem interceptSync_unreadable (host : Host) (payload : Payload) (jumpType : String)
    (w : World) (hp : w.pages = []) :
    interceptSync host payload jumpType w = (.unreadable, w) := by
  have hu : getNowUrl w = .error .typeError := by
    simp [getNowUrl, getNowPage, hp]
  simp [interceptSync, hu]

/-- The synchronous part when line 204 throws. -/
theorem interceptSync_early_throw (host : Host) (payload : Payload) (jumpType : String)
    (w : World) (e : Val) (hp : w.pages ≠ []) (hr : getNowRoute host w = .error e) :
    interceptSync host payload jumpType w = (.threw e, w) := by
  obtain ⟨page, _, hu⟩ := getNowUrl_of_pages_ne_nil w hp
  simp [interceptSync, hu, hr]

/-- The synchronous part on a readable page stack with the debounce closed. -/
theorem interceptSync_closed (host : Host) (payload : Payload) (jumpType : String)
    (w : World) (r : Val) (hp : w.pages ≠ []) (hr : getNowRoute host w = .ok r)
    (ha : truthy (w.routerStatus "allowAction") = false) :
    interceptSync host payload jumpType w =
      if !payload.hasCallback then (.rejected (.list [errObj debounceMsg]), w)
      else (.refused, w) := by
  obtain ⟨page, _, hu⟩ := getNowUrl_of_pages_ne_nil w hp
  simp [interceptSync, hu, hr, ha]

/-- The synchronous part on a readable page stack with the debounce open:
the debounce is closed, nothing has been called yet, and the action either
goes on or an exception has left `intercept`. -/
theorem interceptSync_open (host : Host) (payload : Payload) (jumpType : String)
    (w : World) (r : Val) (hp : w.pages ≠ []) (hr : getNowRoute host w = .ok r)
    (ha : truthy (w.routerStatus "allowAction") = true) :
    (interceptSync host payload jumpType w).2.routerStatus "allowAction" = .bool false
    ∧ (interceptSync host payload jumpType w).2.trace = w.trace
    ∧ (interceptSync host payload jumpType w).2.seen = w.seen
    ∧ (interceptSync host payload jumpType w).2.pages = w.pages
    ∧ ((∃ e, (interceptSync host payload jumpType w).1 = .threw e)
        ∨ ∃ to_, (interceptSync host payload jumpType w).1 = .accepted to_ r) := by
  obtain ⟨page, _, hu⟩ := getNowUrl_of_pages_ne_nil w hp
  have hq0 : Quiet ((w.set "allowAction" (.bool false)).setWait false)
      (backTarget host payload
        ((w.set "allowAction" (.bool false)).setWait false)).2 :=
    backTarget_quiet _ _ _
  simp only [interceptSync, hu, hr, ha, Bool.not_true, Bool.false_eq_true, if_false]
  by_cases hj : jumpType = "navigateBack"
  · have hj2 : ¬ jumpType = "switchTab" := by
      rw [hj]
      decide
    simp only [hj, if_true]
    rw [hj] at hj2
    simp only [hj2, if_false]
    cases hb : backTarget host payload
        ((w.set "allowAction" (.bool false)).setWait false) with
    | mk res w2 =>
      rw [hb] at hq0
      cases res with
      | error e =>
        refine ⟨?_, hq0.trace, hq0.seen, hq0.pages, Or.inl ⟨e, rfl⟩⟩
        rw [hq0.allow]
        simp
      | ok tg =>
        refine ⟨?_, hq0.trace, hq0.seen, hq0.pages, Or.inr ⟨_, rfl⟩⟩
        show (w2.set "actionType" _).routerStatus "allowAction" = _
        rw [set_other _ _ _ _ (by decide), hq0.allow]
        simp
  · simp only [hj, if_false]
    cases hut : urlTarget host payload page.route with
    | error e =>
      exact ⟨by simp, rfl, rfl, rfl, Or.inl ⟨e, rfl⟩⟩
    | ok tg =>
      by_cases hsw : jumpType = "switchTab"
      · simp only [hsw, if_true]
        cases hst : setSwitchTab tg.toUrl
            ((w.set "allowAction" (.bool false)).setWait false) with
        | error e =>
          exact ⟨by simp, rfl, rfl, rfl, Or.inl ⟨e, rfl⟩⟩
        | ok w3 =>
          have hq := setSwitchTab_quiet _ _ _ hst
          refine ⟨?_, hq.trace, hq.seen, hq.pages, Or.inr ⟨_, rfl⟩⟩
          show (w3.set "actionType" _).routerStatus "allowAction" = _
          rw [set_other _ _ _ _ (by decide), hq.allow]
          simp
      · simp only [hsw, if_false]
        refine ⟨?_, rfl, rfl, rfl, Or.inr ⟨_, rfl⟩⟩
        show ((World.set _ "actionType" _)).routerStatus "allowAction" = _
        rw [set_other _ _ _ _ (by decide)]
        simp

/-- The synchronous part calls nothing. -/
theorem interceptSync_logs_nothing (host : Host) (payload : Payload) (jumpType : String)
    (w : World) :
    (interceptSync host payload jumpType w).2.trace = w.trace
    ∧ (interceptSync host payload jumpType w).2.seen = w.seen
    ∧ (interceptSync host payload jumpType w).2.pages = w.pages := by
  by_cases hp : w.pages = []
  · rw [interceptSync_unreadable host payload jumpType w hp]
    exact ⟨rfl, rfl, rfl⟩
  · cases hr : getNowRoute host w with
    | error e =>
      rw [interceptSync_early_throw host payload jumpType w e hp hr]
      exact ⟨rfl, rfl, rfl⟩
    | ok r =>
      cases ha : truthy (w.routerStatus "allowAction") with
      | false =>
        rw [interceptSync_closed host payload jumpType w r hp hr ha]
        split <;> exact ⟨rfl, rfl, rfl⟩
      | true =>
        have ho := interceptSync_open host payload jumpType w r hp hr ha
        exact ⟨ho.2.1, ho.2.2.1, ho.2.2.2.1⟩

/-- What an accepted call tells about the state before and after the
synchronous part. -/
theorem interceptSync_accepted (host : Host) (payload : Payload) (jumpType : String)
    (w w1 : World) (to_ apn : Val)
    (hsync : interceptSync host payload jumpType w = (.accepted to_ apn, w1)) :
    w.pages ≠ [] ∧ truthy (w.routerStatus "allowAction") = true
    ∧ getNowRoute host w = .ok apn
    ∧ w1.trace = w.trace ∧ w1.seen = w.seen ∧ w1.pages = w.pages
    ∧ w1.routerStatus "allowAction" = .bool false := by
  by_cases hp : w.pages = []
  · rw [interceptSync_unreadable host payload jumpType w hp] at hsync
    cases hsync
  · cases hr : getNowRoute host w with
    | error e =>
      rw [interceptSync_early_throw host payload jumpType w e hp hr] at hsync
      cases hsync
    | ok r =>
      cases ha : truthy (w.routerStatus "allowAction") with
      | false =>
        rw [interceptSync_closed host payload jumpType w r hp hr ha] at hsync
        split at hsync <;> cases hsync
      | true =>
        have ho := interceptSync_open host payload jumpType w r hp hr ha
        rw [hsync] at ho
        have hapn : r = apn := by
          rcases ho.2.2.2.2 with ⟨e, he⟩ | ⟨t, ht⟩
          · cases he
          · injection ht with _ h2
            exact h2.symm
        exact ⟨hp, rfl, by rw [hapn], ho.2.1, ho.2.2.1, ho.2.2.2.1, ho.1⟩
/-! ## The rest of `intercept` -/

theorem callbackChain_nativeCalls (host : Host) (reg : Registry) (hq : UserQuiet host)
    (native : Native) (payload : Payload) (to_ apn : Val) (w : World) :
    nativeCalls (callbackChain host reg native payload to_ apn w).trace
      ≤ nativeCalls w.trace + 1 := by
  unfold callbackChain
  have h := callWithNext_nativeCalls reg.beforeEachFn to_ (fromOf host apn w) w
  split
  · rename_i e w1 heq
    rw [heq] at h
    simp only at h
    omega
  · rename_i w1 heq
    rw [heq] at h
    simp only at h
    have hf := (callCallback_sameCalls host reg hq payload.fail (errObj notNextMsg) w1).native
    split
    · rename_i e w2 heq2
      rw [heq2] at hf
      simp only at hf
      omega
    · rename_i u w2 heq2
      rw [heq2] at hf
      simp only at hf
      have ha := (callAfterNotNext_sameCalls host hq w2).native
      omega
  · rename_i w1 heq
    rw [heq] at h
    simp only at h
    have he := enterNative_nativeCalls native payload (w1.setWait true)
    simp only [setWait_trace] at he
    have hn := (nativeCallbacks_sameCalls host reg hq native payload
      (enterNative native payload (w1.setWait true))).native
    omega

theorem callbackChain_openCalls (host : Host) (reg : Registry) (hq : UserQuiet host)
    (native : Native) (payload : Payload) (to_ apn : Val) (w : World)
    (hc : w.routerStatus "allowAction" = .bool false) :
    openCalls (callbackChain host reg native payload to_ apn w).seen = openCalls w.seen := by
  unfold callbackChain
  have h := callWithNext_openCalls reg.beforeEachFn to_ (fromOf host apn w) w (by rw [hc]; rfl)
  have hflag := callWithNext_status reg.beforeEachFn to_ (fromOf host apn w) w "allowAction"
    (by decide)
  split
  · rename_i e w1 heq
    rw [heq] at h
    exact h
  · rename_i w1 heq
    rw [heq] at h
    simp only at h
    have hf := (callCallback_sameCalls host reg hq payload.fail (errObj notNextMsg) w1).opened
    split
    · rename_i e w2 heq2
      rw [heq2] at hf
      simp only at hf
      omega
    · rename_i u w2 heq2
      rw [heq2] at hf
      simp only at hf
      have ha := (callAfterNotNext_sameCalls host hq w2).opened
      omega
  · rename_i w1 heq
    rw [heq] at h hflag
    simp only at h hflag
    have he := enterNative_openCalls native payload (w1.setWait true)
      (by rw [setWait_routerStatus, hflag, hc]; rfl)
    simp only [setWait_seen] at he
    have hn := (nativeCallbacks_sameCalls host reg hq native payload
      (enterNative native payload (w1.setWait true))).opened
    omega

theorem promiseChain_nativeCalls (host : Host) (reg : Registry) (hq : UserQuiet host)
    (native : Native) (payload : Payload) (jumpType : String) (to_ apn : Val) (w : World) :
    nativeCalls (promiseChain host reg native payload jumpType to_ apn w).2.trace
      ≤ nativeCalls w.trace + 1 := by
  unfold promiseChain
  have h := callWithNext_nativeCalls reg.beforeEachFn to_ (fromOf host apn w) w
  split
  · rename_i e w1 heq
    rw [heq] at h
    simp only at h
    simp only
    omega
  · rename_i w1 heq
    rw [heq] at h
    simp only at h
    have ha := (callAfterNotNext_sameCalls host hq (w1.set "allowAction" (.bool true))).native
    simp only [set_trace] at ha
    split
    · rename_i e w2 heq2
      rw [heq2] at ha
      simp only at ha ⊢
      omega
    · rename_i u w2 heq2
      rw [heq2] at ha
      simp only at ha ⊢
      omega
  · rename_i w1 heq
    rw [heq] at h
    simp only at h
    have he := enterNative_nativeCalls native payload (w1.setWait true)
    simp only [setWait_trace] at he
    dsimp only
    split
    · simp only
      omega
    · rw [(getAsyncResult_sameCalls _ _ _ _ _ _ _).native]
      omega
    · rw [(getAsyncResult_sameCalls _ _ _ _ _ _ _).native]
      omega
    · rw [(getAsyncResult_sameCalls _ _ _ _ _ _ _).native]
      omega

theorem promiseChain_openCalls (host : Host) (reg : Registry) (hq : UserQuiet host)
    (native : Native) (payload : Payload) (jumpType : String) (to_ apn : Val) (w : World)
    (hc : w.routerStatus "allowAction" = .bool false) :
    openCalls (promiseChain host reg native payload jumpType to_ apn w).2.seen
      = openCalls w.seen := by
  unfold promiseChain
  have h := callWithNext_openCalls reg.beforeEachFn to_ (fromOf host apn w) w (by rw [hc]; rfl)
  have hflag := callWithNext_status reg.beforeEachFn to_ (fromOf host apn w) w "allowAction"
    (by decide)
  split
  · rename_i e w1 heq
    rw [heq] at h
    exact h
  · rename_i w1 heq
    rw [heq] at h
    simp only at h
    have ha := (callAfterNotNext_sameCalls host hq (w1.set "allowAction" (.bool true))).opened
    simp only [set_seen] at ha
    split
    · rename_i e w2 heq2
      rw [heq2] at ha
      simp only at ha ⊢
      omega
    · rename_i u w2 heq2
      rw [heq2] at ha
      simp only at ha ⊢
      omega
  · rename_i w1 heq
    rw [heq] at h hflag
    simp only at h hflag
    have he := enterNative_openCalls native payload (w1.setWait true)
      (by rw [setWait_routerStatus, hflag, hc]; rfl)
    simp only [setWait_seen] at he
    dsimp only
    split
    · simp only
      omega
    · rw [(getAsyncResult_sameCalls _ _ _ _ _ _ _).opened]
      omega
    · rw [(getAsyncResult_sameCalls _ _ _ _ _ _ _).opened]
      omega
    · rw [(getAsyncResult_sameCalls _ _ _ _ _ _ _).opened]
      omega

theorem directCall_nativeCalls (host : Host) (reg : Registry) (hq : UserQuiet host)
    (native : Native) (payload : Payload) (w : World) :
    nativeCalls (directCall host reg native payload w).2.trace = nativeCalls w.trace + 1 := by
  have hb : nativeCalls ((w.log (.native payload)).setPages native.pagesAfter).trace
      = nativeCalls w.trace + 1 := by
    simp [nativeCalls_append, nativeCalls, Event.isNative]
  unfold directCall
  dsimp only
  split
  · exact hb
  · exact hb
  · exact hb
  · rw [(nativeCallbacks_sameCalls host reg hq native payload _).native]
    exact hb

/-- After its synchronous part, `intercept` calls the native function at most
once. -/
theorem interceptRest_nativeCalls (host : Host) (reg : Registry) (hq : UserQuiet host)
    (native : Native) (payload : Payload) (jumpType : String) (g : Gate) (w : World) :
    nativeCalls (interceptRest host reg native payload jumpType (g, w)).2.trace
      ≤ nativeCalls w.trace + 1 := by
  cases g with
  | unreadable =>
    simp only [interceptRest]
    rw [directCall_nativeCalls host reg hq]
  | rejected r =>
    simp only [interceptRest]
    omega
  | refused =>
    simp only [interceptRest]
    have h := (callCallback_sameCalls host reg hq payload.fail (errObj debounceMsg) w).native
    split
    · rename_i v w2 heq
      rw [heq] at h
      simp only at h ⊢
      omega
    · rename_i e w2 heq
      rw [heq] at h
      simp only at h ⊢
      omega
  | threw e =>
    simp only [interceptRest]
    omega
  | accepted to_ apn =>
    simp only [interceptRest]
    split
    · exact callbackChain_nativeCalls host reg hq native _ to_ apn w
    · have := promiseChain_nativeCalls host reg hq native payload jumpType to_ apn w
      split
      · rename_i r w2 heq2
        rw [heq2] at this
        exact this
      · rename_i e w2 heq2
        rw [heq2] at this
        exact this

/-- After a synchronous part that did not go on to the chain, `intercept`
calls neither the native function nor a hook with `next`. -/
theorem interceptRest_stopped (host : Host) (reg : Registry) (hq : UserQuiet host)
    (native : Native) (payload : Payload) (jumpType : String) (g : Gate) (w : World)
    (hg : g = .refused ∨ (∃ r, g = .rejected r) ∨ ∃ e, g = .threw e) :
    SameCalls w (interceptRest host reg native payload jumpType (g, w)).2 := by
  rcases hg with h | ⟨r, h⟩ | ⟨e, h⟩
  · subst h
    simp only [interceptRest]
    have h := callCallback_sameCalls host reg hq payload.fail (errObj debounceMsg) w
    split
    · rename_i v w2 heq
      rw [heq] at h
      exact h
    · rename_i e w2 heq
      rw [heq] at h
      exact h
  · subst h
    exact SameCalls.refl w
  · subst h
    exact SameCalls.refl w

/-- A call of `intercept` calls the native function at most once. -/
theorem intercept_nativeCalls (host : Host) (reg : Registry) (hq : UserQuiet host)
    (native : Native) (payload : Payload) (jumpType : String) (w : World) :
    nativeCalls (intercept host reg native payload jumpType w).2.trace
      ≤ nativeCalls w.trace + 1 := by
  have h := interceptRest_nativeCalls host reg hq native payload jumpType
    (interceptSync host payload jumpType w).1 (interceptSync host payload jumpType w).2
  rw [(interceptSync_logs_nothing host payload jumpType w).1] at h
  exact h

/-- A call of `intercept` on a readable page stack on which the debounce is
closed, or line 204 throws, calls neither the native function nor a hook
with `next`. -/
theorem intercept_stopped (host : Host) (reg : Registry) (hq : UserQuiet host)
    (native : Native) (payload : Payload) (jumpType : String) (w : World)
    (hp : w.pages ≠ [])
    (hc : truthy (w.routerStatus "allowAction") = false ∨ ∃ e, getNowRoute host w = .error e) :
    SameCalls w (intercept host reg native payload jumpType w).2 := by
  unfold intercept
  cases hr : getNowRoute host w with
  | error e =>
    rw [interceptSync_early_throw host payload jumpType w e hp hr]
    exact interceptRest_stopped host reg hq native payload jumpType _ w (Or.inr (Or.inr ⟨e, rfl⟩))
  | ok r =>
    rcases hc with ha | ⟨e, he⟩
    · rw [interceptSync_closed host payload jumpType w r hp hr ha]
      split
      · exact interceptRest_stopped host reg hq native payload jumpType _ w
          (Or.inr (Or.inl ⟨_, rfl⟩))
      · exact interceptRest_stopped host reg hq native payload jumpType _ w (Or.inl rfl)
    · rw [hr] at he
      cases he

/-- Every call of the native function and of a hook with `next` that a call
of `intercept` on a readable page stack makes is made with the debounce
closed. -/
theorem intercept_openCalls (host : Host) (reg : Registry) (hq : UserQuiet host)
    (native : Native) (payload : Payload) (jumpType : String) (w : World)
    (hp : w.pages ≠ []) :
    openCalls (intercept host reg native payload jumpType w).2.seen = openCalls w.seen := by
  cases hr : getNowRoute host w with
  | error e =>
    exact (intercept_stopped host reg hq native payload jumpType w hp (Or.inr ⟨e, hr⟩)).opened
  | ok r =>
    cases ha : truthy (w.routerStatus "allowAction") with
    | false =>
      exact (intercept_stopped host reg hq native payload jumpType w hp (Or.inl ha)).opened
    | true =>
      have ho := interceptSync_open host payload jumpType w r hp hr ha
      unfold intercept
      cases hs : interceptSync host payload jumpType w with
      | mk g w1 =>
        rw [hs] at ho
        simp only at ho
        rcases ho.2.2.2.2 with ⟨e, he⟩ | ⟨t, ht⟩
        · subst he
          simp only [interceptRest]
          exact congrArg openCalls ho.2.2.1
        · subst ht
          simp only [interceptRest]
          split
          · rw [callbackChain_openCalls host reg hq native _ t r w1 ho.1]
            exact congrArg openCalls ho.2.2.1
          · have := promiseChain_openCalls host reg hq native payload jumpType t r w1 ho.1
            split
            · rename_i r1 w2 heq2
              rw [heq2] at this
              simp only at this ⊢
              rw [this]
              exact congrArg openCalls ho.2.2.1
            · rename_i e w2 heq2
              rw [heq2] at this
              simp only at this ⊢
              rw [this]
              exact congrArg openCalls ho.2.2.1
/-! ## A debounced call -/

/-- Claim C2, amended: while the page stack is readable, the options of the
current page decode and the debounce is closed, `intercept` itself changes
nothing and calls neither the native function nor a hook with `next`.  With
none of `fail`/`success`/`complete` it returns the one-element list
`[{errMsg}]`.  Otherwise it returns what the guarded call
`payload.fail && payload.fail({errMsg})` gives: `undefined`, nothing being
called, when there is no `fail`; the result of the caller's `fail`, called
once with `{errMsg}` (or its exception), when `fail` is a function of the
caller; and when `fail` is the wrapper an earlier accepted call left in the
same payload object, the wrapper sets `allowAction` to `true`, runs the
`onError` hooks and then calls the `fail` it has kept. -/
theorem intercept_debounced (host : Host) (reg : Registry) (native : Native)
    (payload : Payload) (jumpType : String) (w : World) (r : Val)
    (hp : w.pages ≠ []) (hr : getNowRoute host w = .ok r)
    (ha : truthy (w.routerStatus "allowAction") = false) :
    (payload.hasCallback = false →
        intercept host reg native payload jumpType w
          = (.ret (.list [errObj debounceMsg]), w))
    ∧ (payload.hasCallback = true →
        intercept host reg native payload jumpType w
          = match callCallback host reg payload.fail (errObj debounceMsg) w with
            | (.ok v, w1) => (.ret (.val v), w1)
            | (.error e, w1) => (.throw e, w1))
    ∧ (payload.hasCallback = true → payload.fail = .absent →
        intercept host reg native payload jumpType w = (.ret (.val .undefined), w))
    ∧ (∀ id, payload.fail = .user id →
        intercept host reg native payload jumpType w
          = match host.userFn id (errObj debounceMsg)
                (w.log (.callback id (errObj debounceMsg))) with
            | (.ok v, w1) => (.ret (.val v), w1)
            | (.error e, w1) => (.throw e, w1))
    ∧ (∀ fail to_ apn, payload.fail = .failWrapper fail to_ apn →
        intercept host reg native payload jumpType w
          = match callWithoutNext reg.onErrorFn to_
                (fromOf host apn (w.set "allowAction" (.bool true)))
                (w.set "allowAction" (.bool true)) with
            | (.error e, w2) => (.throw e, w2)
            | (.ok _, w2) =>
              match callCallback host reg fail (errObj debounceMsg) w2 with
              | (.ok v, w3) => (.ret (.val v), w3)
              | (.error e, w3) => (.throw e, w3))
    ∧ (UserQuiet host → SameCalls w (intercept host reg native payload jumpType w).2) := by
  have hs := interceptSync_closed host payload jumpType w r hp hr ha
  have hgen : payload.hasCallback = true →
      intercept host reg native payload jumpType w
        = match callCallback host reg payload.fail (errObj debounceMsg) w with
          | (.ok v, w1) => (.ret (.val v), w1)
          | (.error e, w1) => (.throw e, w1) := by
    intro hcb
    unfold intercept
    rw [hs]
    simp only [hcb, Bool.not_true, Bool.false_eq_true, if_false, interceptRest]
  refine ⟨?_, hgen, ?_, ?_, ?_, ?_⟩
  · intro hcb
    unfold intercept
    rw [hs]
    simp only [hcb, Bool.not_false, if_true, interceptRest]
  · intro hcb hfail
    rw [hgen hcb, hfail]
    rfl
  · intro id hfail
    have hcb : payload.hasCallback = true := by
      simp [Payload.hasCallback, hfail, Callback.isPresent]
    rw [hgen hcb, hfail]
    rfl
  · intro fail to_ apn hfail
    have hcb : payload.hasCallback = true := by
      simp [Payload.hasCallback, hfail, Callback.isPresent]
    rw [hgen hcb, hfail]
    simp only [callCallback]
    cases callWithoutNext reg.onErrorFn to_
        (fromOf host apn (w.set "allowAction" (.bool true)))
        (w.set "allowAction" (.bool true)) with
    | mk res w2 =>
      cases res with
      | error e => rfl
      | ok u => rfl
  · intro hq
    exact intercept_stopped host reg hq native payload jumpType w hp (Or.inl ha)

/-- A debounced callback-style call whose `fail` is a function of the caller,
made while another action is in flight: the function is called once, its
result is returned, and the router status stays as it was. -/
theorem intercept_debounced_witness :
    (intercept mpHost noHooks pushingNative withFail "navigateTo" busyPage).1
      = .ret (.val (.num (.int 5)))
    ∧ (intercept mpHost noHooks pushingNative withFail "navigateTo" busyPage).2.trace
      = busyPage.trace ++ [.callback 4 (errObj debounceMsg)]
    ∧ (intercept mpHost noHooks pushingNative withFail "navigateTo" busyPage).2.routerStatus
      = busyPage.routerStatus := by
  have h := (intercept_debounced mpHost noHooks pushingNative withFail "navigateTo" busyPage
    (.route "pages/index" .undefined .undefined [] none "")
    (by decide) (by decide) (by decide)).2.2.2.1 4 rfl
  rw [h]
  exact ⟨rfl, rfl, rfl⟩

/-- Claim C2 as stated fails, in three ways.  A debounced call whose payload
has a `success` callback and no `fail` calls nothing and returns
`undefined`: the rejection is not reported.  A debounced call with the
payload object of an earlier accepted call runs the wrapper that call left
in `fail`, and `routerStatus.allowAction` becomes `true`.  And when an
option of the current page does not decode, line 204 throws before the
debounce is looked at. -/
theorem intercept_debounced_unreported :
    (successOnly.hasCallback = true
      ∧ busyPage.pages ≠ []
      ∧ truthy (busyPage.routerStatus "allowAction") = false
      ∧ (intercept mpHost noHooks pushingNative successOnly "navigateTo" busyPage).1
          = .ret (.val .undefined)
      ∧ (intercept mpHost noHooks pushingNative successOnly "navigateTo" busyPage).2.trace = []
      ∧ ¬ ∃ id, successOnly.fail = .user id
          ∧ ((intercept mpHost noHooks pushingNative successOnly "navigateTo"
              busyPage).2.trace).count (.callback id (errObj debounceMsg)) = 1)
    ∧ ((intercept mpHost noHooks pendingNative withFail "navigateTo" onePage).2.pages ≠ []
      ∧ truthy ((intercept mpHost noHooks pendingNative withFail "navigateTo"
          onePage).2.routerStatus "allowAction") = false
      ∧ (intercept mpHost noHooks pendingNative
          (payloadAfter mpHost withFail "navigateTo" onePage) "navigateTo"
          (intercept mpHost noHooks pendingNative withFail "navigateTo"
            onePage).2).2.routerStatus "allowAction" = .bool true)
    ∧ ((percentPage.set "allowAction" (.bool false)).pages ≠ []
      ∧ truthy ((percentPage.set "allowAction" (.bool false)).routerStatus "allowAction") = false
      ∧ (intercept mpHost noHooks pushingNative { url := some "/pages/a" } "navigateTo"
          (percentPage.set "allowAction" (.bool false))).1 = .throw .uriError) := by
  refine ⟨⟨by decide, by decide, by decide, by decide, by decide, ?_⟩,
    ⟨by decide, by decide, by decide⟩, ⟨by decide, by decide, by decide⟩⟩
  rintro ⟨id, hcb, _⟩
  have hnone : successOnly.fail = .absent := by decide
  rw [hnone] at hcb
  cases hcb

/-! ## Single flight -/

/-- The current route depends on the page stack only. -/
theorem getNowRoute_congr (host : Host) (w w1 : World) (h : w1.pages = w.pages) :
    getNowRoute host w1 = getNowRoute host w := by
  simp [getNowRoute, getNowPage, h]

/-- The sample host's functions leave the state alone. -/
theorem mpHost_userQuiet : UserQuiet mpHost := by
  intro id arg w
  have h : (mpHost.userFn id arg w).2 = w := by
    simp only [mpHost]
    split
    · rfl
    · split <;> rfl
  rw [h]
  exact SameCalls.refl w

/-- Claim C3: for a call of `intercept` on a readable page stack with the
debounce open, the caller's functions not navigating themselves: every call
of a `beforeEach` hook and of the native function that the call makes is
made with the debounce closed, and the native function is called at most
once; the synchronous part closes the debounce before anything is called
(unless line 204 throws, and then nothing is called at all), and the hooks
leave it closed; a second call made when the first has returned, before its
chain goes on, calls neither the native function nor a hook, and the two
calls together call the native function at most once; the same holds for a
second call made after the first has run, the debounce not having been
reset. -/
theorem single_flight (host : Host) (reg : Registry) (native : Native)
    (payload : Payload) (jumpType : String) (w : World) (hq : UserQuiet host)
    (hp : w.pages ≠ []) (ha : truthy (w.routerStatus "allowAction") = true) :
    openCalls (intercept host reg native payload jumpType w).2.seen = openCalls w.seen
    ∧ nativeCalls (intercept host reg native payload jumpType w).2.trace
        ≤ nativeCalls w.trace + 1
    ∧ ((∃ e, getNowRoute host w = .error e
          ∧ interceptSync host payload jumpType w = (.threw e, w))
        ∨ ((interceptSync host payload jumpType w).2.routerStatus "allowAction" = .bool false
          ∧ (interceptSync host payload jumpType w).2.trace = w.trace
          ∧ (interceptSync host payload jumpType w).2.seen = w.seen
          ∧ ∀ to_ from_,
            (callWithNext reg.beforeEachFn to_ from_
              (interceptSync host payload jumpType w).2).2.routerStatus "allowAction"
                = .bool false))
    ∧ (∀ reg2 native2 payload2 jumpType2,
        SameCalls (interceptSync host payload jumpType w).2
          (intercept host reg2 native2 payload2 jumpType2
            (interceptSync host payload jumpType w).2).2)
    ∧ (∀ reg2 native2 payload2 jumpType2,
        nativeCalls (interceptRest host reg native payload jumpType
          ((interceptSync host payload jumpType w).1,
            (intercept host reg2 native2 payload2 jumpType2
              (interceptSync host payload jumpType w).2).2)).2.trace
          ≤ nativeCalls w.trace + 1)
    ∧ (∀ reg2 native2 payload2 jumpType2,
        (intercept host reg native payload jumpType w).2.pages ≠ [] →
        truthy ((intercept host reg native payload jumpType w).2.routerStatus "allowAction")
          = false →
        SameCalls (intercept host reg native payload jumpType w).2
          (intercept host reg2 native2 payload2 jumpType2
            (intercept host reg native payload jumpType w).2).2
        ∧ nativeCalls (intercept host reg2 native2 payload2 jumpType2
            (intercept host reg native payload jumpType w).2).2.trace
          ≤ nativeCalls w.trace + 1) := by
  have hlog := interceptSync_logs_nothing host payload jumpType w
  have hsecond : ∀ reg2 native2 payload2 jumpType2,
      SameCalls (interceptSync host payload jumpType w).2
        (intercept host reg2 native2 payload2 jumpType2
          (interceptSync host payload jumpType w).2).2 := by
    intro reg2 native2 payload2 jumpType2
    have hp1 : (interceptSync host payload jumpType w).2.pages ≠ [] := by
      rw [hlog.2.2]
      exact hp
    cases hr : getNowRoute host w with
    | error e =>
      refine intercept_stopped host reg2 hq native2 payload2 jumpType2 _ hp1 (Or.inr ⟨e, ?_⟩)
      rw [getNowRoute_congr host w _ hlog.2.2, hr]
    | ok r =>
      have ho := interceptSync_open host payload jumpType w r hp hr ha
      refine intercept_stopped host reg2 hq native2 payload2 jumpType2 _ hp1 (Or.inl ?_)
      rw [ho.1]
      rfl
  refine ⟨intercept_openCalls host reg hq native payload jumpType w hp,
    intercept_nativeCalls host reg hq native payload jumpType w, ?_, hsecond, ?_, ?_⟩
  · cases hr : getNowRoute host w with
    | error e =>
      exact Or.inl ⟨e, rfl, interceptSync_early_throw host payload jumpType w e hp hr⟩
    | ok r =>
      have ho := interceptSync_open host payload jumpType w r hp hr ha
      refine Or.inr ⟨ho.1, ho.2.1, ho.2.2.1, ?_⟩
      intro to_ from_
      rw [callWithNext_status _ _ _ _ _ (by decide), ho.1]
  · intro reg2 native2 payload2 jumpType2
    have h1 := interceptRest_nativeCalls host reg hq native payload jumpType
      (interceptSync host payload jumpType w).1
      (intercept host reg2 native2 payload2 jumpType2
        (interceptSync host payload jumpType w).2).2
    rw [(hsecond reg2 native2 payload2 jumpType2).native, hlog.1] at h1
    exact h1
  · intro reg2 native2 payload2 jumpType2 hp2 hflag
    have hs := intercept_stopped host reg2 hq native2 payload2 jumpType2 _ hp2 (Or.inl hflag)
    refine ⟨hs, ?_⟩
    rw [hs.native]
    exact intercept_nativeCalls host reg hq native payload jumpType w

/-- Two calls on a fresh one-page stack, the second made when the first has
returned: the first makes its one native call with the debounce closed, the
second makes none. -/
theorem single_flight_witness :
    openCalls (intercept mpHost noHooks pushingNative { url := some "/pages/a" } "navigateTo"
        onePage).2.seen = openCalls onePage.seen
    ∧ nativeCalls (interceptRest mpHost noHooks pushingNative { url := some "/pages/a" }
        "navigateTo"
        ((interceptSync mpHost { url := some "/pages/a" } "navigateTo" onePage).1,
          (intercept mpHost noHooks pushingNative { url := some "/pages/b" } "redirectTo"
            (interceptSync mpHost { url := some "/pages/a" } "navigateTo"
              onePage).2).2)).2.trace ≤ nativeCalls onePage.trace + 1 :=
  ⟨(single_flight mpHost noHooks pushingNative { url := some "/pages/a" } "navigateTo" onePage
      mpHost_userQuiet (by decide) (by decide)).1,
    (single_flight mpHost noHooks pushingNative { url := some "/pages/a" } "navigateTo" onePage
      mpHost_userQuiet (by decide) (by decide)).2.2.2.2.1 noHooks pushingNative
      { url := some "/pages/b" } "redirectTo"⟩
/-! ## A chain stopped by a hook -/

/-- A promise-style chain stopped by a hook: the debounce is opened again,
`callAfterNotNext` runs, and the list is returned if that call returns. -/
theorem promiseChain_stopped_eq (host : Host) (reg : Registry) (native : Native)
    (payload : Payload) (jumpType : String) (to_ apn : Val) (w : World)
    (h : (callWithNext reg.beforeEachFn to_ (fromOf host apn w) w).1 = .ok false) :
    promiseChain host reg native payload jumpType to_ apn w
      = match callAfterNotNext host
            ((callWithNext reg.beforeEachFn to_ (fromOf host apn w) w).2.set "allowAction"
              (.bool true)) with
        | (.error e, w2) => (.error e, w2)
        | (.ok _, w2) => (.ok (.list [errObj notNextMsg]), w2) := by
  unfold promiseChain
  cases hc : callWithNext reg.beforeEachFn to_ (fromOf host apn w) w with
  | mk res w1 =>
    rw [hc] at h
    simp only at h
    subst h
    rfl

/-- Claim C4, amended: in an accepted promise-style call whose `beforeEach`
chain reaches a hook that returns without calling `next`, the hooks up to
that one are all that has been called when the chain stops: no later hook,
and not the native function.  Then `allowAction` is set to `true`, the
property `afterNotNext` is set to `null`, and a function that was held in it
is called, once, as the last thing the call does: when the function returns
the promise resolves to the one-element list
`[{errMsg: 'beforeEach中没有使用next'}]`, when it throws the promise rejects
with what it threw.  When no function is held, nothing more is called and
the promise resolves to the list. -/
theorem promise_chain_stopped (host : Host) (reg : Registry) (native : Native)
    (payload : Payload) (jumpType : String) (w w1 : World) (to_ apn : Val)
    (pre : List Hook) (h : Hook) (post : List Hook)
    (hsync : interceptSync host payload jumpType w = (.accepted to_ apn, w1))
    (hstyle : payload.hasCallback = false)
    (hl : reg.beforeEachFn = pre ++ h :: post)
    (hpre : ∀ g ∈ pre, g.callsNext to_ (fromOf host apn w1) ∧ g.finishes to_ (fromOf host apn w1))
    (hf : h.finishes to_ (fromOf host apn w1))
    (hn : ¬ h.callsNext to_ (fromOf host apn w1)) :
    (callWithNext reg.beforeEachFn to_ (fromOf host apn w1) w1).2.trace
      = w.trace ++ hookEvents (pre ++ [h]) to_ (fromOf host apn w1)
    ∧ (∀ id arity,
        (callWithNext reg.beforeEachFn to_ (fromOf host apn w1) w1).2.routerStatus "afterNotNext"
          = .fn id arity →
        intercept host reg native payload jumpType w
          = match host.userFn id .undefined
                ((((callWithNext reg.beforeEachFn to_ (fromOf host apn w1) w1).2.set
                  "allowAction" (.bool true)).set "afterNotNext" .null).log
                  (.ranAfterNotNext id)) with
            | (.ok _, w2) => (.resolve (.list [errObj notNextMsg]), w2)
            | (.error e, w2) => (.reject e, w2))
    ∧ (∀ id,
        ((((callWithNext reg.beforeEachFn to_ (fromOf host apn w1) w1).2.set
            "allowAction" (.bool true)).set "afterNotNext" .null).log
            (.ranAfterNotNext id)).trace
          = w.trace ++ hookEvents (pre ++ [h]) to_ (fromOf host apn w1)
              ++ [.ranAfterNotNext id])
    ∧ ((∀ id arity,
        (callWithNext reg.beforeEachFn to_ (fromOf host apn w1) w1).2.routerStatus "afterNotNext"
          ≠ .fn id arity) →
        intercept host reg native payload jumpType w
          = (.resolve (.list [errObj notNextMsg]),
              ((callWithNext reg.beforeEachFn to_ (fromOf host apn w1) w1).2.set
                "allowAction" (.bool true)).set "afterNotNext" .null)) := by
  have hacc := interceptSync_accepted host payload jumpType w w1 to_ apn hsync
  obtain ⟨hres, htr⟩ := callWithNext_stops reg.beforeEachFn to_ (fromOf host apn w1) w1
    pre h post hl hpre hf hn
  rw [hacc.2.2.2.1] at htr
  have hi : intercept host reg native payload jumpType w
      = match callAfterNotNext host
            ((callWithNext reg.beforeEachFn to_ (fromOf host apn w1) w1).2.set "allowAction"
              (.bool true)) with
        | (.error e, w2) => (.reject e, w2)
        | (.ok _, w2) => (.resolve (.list [errObj notNextMsg]), w2) := by
    unfold intercept
    rw [hsync]
    simp only [interceptRest, hstyle, Bool.false_eq_true, if_false]
    rw [promiseChain_stopped_eq host reg native payload jumpType to_ apn w1 hres]
    cases callAfterNotNext host
        ((callWithNext reg.beforeEachFn to_ (fromOf host apn w1) w1).2.set "allowAction"
          (.bool true)) with
    | mk res w2 =>
      cases res with
      | error e => rfl
      | ok u => rfl
  refine ⟨htr, ?_, ?_, ?_⟩
  · intro id arity hfn
    have hfn' : ((callWithNext reg.beforeEachFn to_ (fromOf host apn w1) w1).2.set "allowAction"
        (.bool true)).routerStatus "afterNotNext" = .fn id arity := by
      rw [set_other _ _ _ _ (by decide)]
      exact hfn
    rw [hi]
    simp only [callAfterNotNext, hfn']
    cases host.userFn id .undefined
        ((((callWithNext reg.beforeEachFn to_ (fromOf host apn w1) w1).2.set
          "allowAction" (.bool true)).set "afterNotNext" .null).log (.ranAfterNotNext id)) with
    | mk res w2 =>
      cases res with
      | error e => rfl
      | ok u => rfl
  · intro id
    simp only [log_trace, set_trace, htr]
  · intro hnf
    have hnf' : ∀ id arity,
        ((callWithNext reg.beforeEachFn to_ (fromOf host apn w1) w1).2.set "allowAction"
          (.bool true)).routerStatus "afterNotNext" ≠ .fn id arity := by
      intro id arity
      rw [set_other _ _ _ _ (by decide)]
      exact hnf id arity
    have hca : callAfterNotNext host
        ((callWithNext reg.beforeEachFn to_ (fromOf host apn w1) w1).2.set "allowAction"
          (.bool true))
        = (.ok (), ((callWithNext reg.beforeEachFn to_ (fromOf host apn w1) w1).2.set
            "allowAction" (.bool true)).set "afterNotNext" .null) := by
      unfold callAfterNotNext
      dsimp only
      split
      · rename_i id arity heq
        exact absurd heq (hnf' id arity)
      · rfl
    rw [hi, hca]

/-- Three hooks of which the second registers an `afterNotNext` function and
returns without calling `next`: the third hook and the native function are
not called, the registered function runs once, last, and as it returns the
promise resolves to the list. -/
theorem promise_chain_stopped_witness :
    (intercept mpHost stoppingHooks pushingNative { url := some "/pages/a" } "navigateTo"
        onePage).1 = .resolve (.list [errObj notNextMsg])
    ∧ (intercept mpHost stoppingHooks pushingNative { url := some "/pages/a" } "navigateTo"
        onePage).2.trace
      = onePage.trace
          ++ hookEvents ([passHook] ++ [stopHook])
              (.route "pages/a" .undefined .undefined [] (some "navigateTo") "")
              (fromOf mpHost (.route "pages/index" .undefined .undefined [] none "")
                (interceptSync mpHost { url := some "/pages/a" } "navigateTo" onePage).2)
          ++ [.ranAfterNotNext 9] := by
  have h := promise_chain_stopped mpHost stoppingHooks pushingNative { url := some "/pages/a" }
    "navigateTo" onePage
    (interceptSync mpHost { url := some "/pages/a" } "navigateTo" onePage).2
    (.route "pages/a" .undefined .undefined [] (some "navigateTo") "")
    (.route "pages/index" .undefined .undefined [] none "")
    [passHook] stopHook [passHook]
    (Prod.ext (by decide) rfl) (by decide) rfl
    (by
      intro g hg
      rw [List.mem_singleton] at hg
      subst hg
      exact ⟨by simp [Hook.callsNext, passHook], rfl⟩)
    rfl
    (by simp [Hook.callsNext, stopHook])
  have h1 := h.2.1 9 0 (by decide)
  have h2 := h.2.2.1 9
  rw [h1]
  exact ⟨rfl, h2⟩

/-- Claim C4 as stated fails: the only hook returns without calling `next`
and leaves an `afterNotNext` function that throws; the call is accepted and
promise-style, the function is run, and the promise rejects with what the
function threw instead of resolving to the list. -/
theorem promise_chain_stopped_rejects :
    (interceptSync mpHost { url := some "/pages/a" } "navigateTo" onePage).1
      = .accepted (.route "pages/a" .undefined .undefined [] (some "navigateTo") "")
          (.route "pages/index" .undefined .undefined [] none "")
    ∧ ({ url := some "/pages/a" } : Payload).hasCallback = false
    ∧ throwingStop.beforeEachFn = [stopThrowHook]
    ∧ stopThrowHook.finishes (.route "pages/a" .undefined .undefined [] (some "navigateTo") "")
        .null
    ∧ ¬ stopThrowHook.callsNext
        (.route "pages/a" .undefined .undefined [] (some "navigateTo") "") .null
    ∧ (intercept mpHost throwingStop pushingNative { url := some "/pages/a" } "navigateTo"
        onePage).2.trace
      = [.calledWithNext 3 (.route "pages/a" .undefined .undefined [] (some "navigateTo") "")
          .null, .ranAfterNotNext 13]
    ∧ (intercept mpHost throwingStop pushingNative { url := some "/pages/a" } "navigateTo"
        onePage).1 = .reject (.str "boom")
    ∧ (intercept mpHost throwingStop pushingNative { url := some "/pages/a" } "navigateTo"
        onePage).1 ≠ .resolve (.list [errObj notNextMsg]) := by
  refine ⟨by decide, by decide, rfl, rfl, ?_, by decide, by decide, by decide⟩
  simp [Hook.callsNext, stopThrowHook]

/-! ## `getAsyncResult` -/

/-- Whatever the `try` block returns is the awaited value itself. -/
theorem getAsyncResultTry_ok (host : Host) (reg : Registry) (result : Except Val Res)
    (to_ from_ : Val) (jumpType : String) (w : World) (r : Res)
    (h : (getAsyncResultTry host reg result to_ from_ jumpType w).1 = .ok r) :
    result = .ok r := by
  unfold getAsyncResultTry at h
  split at h
  · cases h
  · split at h
    · cases h
    · split at h
      · cases h
      · injection h with h
        rw [h]
    · split at h
      · injection h with h
        rw [h]
      · split at h
        · split at h
          · cases h
          · injection h with h
            rw [h]
        · injection h with h
          rw [h]

/-- A rejected native promise goes straight to the `catch` clause: the state
is left as it was. -/
theorem getAsyncResult_rejected (host : Host) (reg : Registry) (e : Val)
    (to_ from_ : Val) (jumpType : String) (w : World) :
    getAsyncResult host reg (.error e) to_ from_ jumpType w = (newError e, w) :=
  rfl

/-- Claim C7, amended: when the awaited native result rejects, the
rejection is thrown inside the `try` block; when a value is thrown there, by
the rejection or while the result is processed, `getAsyncResult` resolves to
the `Error` built from it, unless the conversion of the value to a string
throws (a `Symbol`, an object whose `toString` throws or that has no
prototype), in which case `new Error(e)` throws and the promise rejects with
what the conversion threw; when nothing is thrown it resolves to the native
result itself; and it rejects in no other case. -/
theorem getAsyncResult_settles (host : Host) (reg : Registry)
    (result : Except Val Res) (to_ from_ : Val) (jumpType : String) (w : World) :
    (∀ e, result = .error e →
        (getAsyncResultTry host reg result to_ from_ jumpType w).1 = .error e)
    ∧ (∀ e, (getAsyncResultTry host reg result to_ from_ jumpType w).1 = .error e →
        conversionError e = none →
        (getAsyncResult host reg result to_ from_ jumpType w).1 = .ok (.error e))
    ∧ (∀ e thrown, (getAsyncResultTry host reg result to_ from_ jumpType w).1 = .error e →
        conversionError e = some thrown →
        (getAsyncResult host reg result to_ from_ jumpType w).1 = .error thrown)
    ∧ (∀ r, (getAsyncResultTry host reg result to_ from_ jumpType w).1 = .ok r →
        result = .ok r
        ∧ (getAsyncResult host reg result to_ from_ jumpType w).1 = .ok r)
    ∧ (∀ thrown, (getAsyncResult host reg result to_ from_ jumpType w).1 = .error thrown →
        ∃ e, (getAsyncResultTry host reg result to_ from_ jumpType w).1 = .error e
          ∧ conversionError e = some thrown) := by
  have hout : (getAsyncResult host reg result to_ from_ jumpType w).1
      = match (getAsyncResultTry host reg result to_ from_ jumpType w).1 with
        | .ok r => .ok r
        | .error e => newError e := by
    unfold getAsyncResult
    cases getAsyncResultTry host reg result to_ from_ jumpType w with
    | mk res w1 =>
      cases res with
      | error e => rfl
      | ok r => rfl
  refine ⟨?_, ?_, ?_, ?_, ?_⟩
  · intro e he
    subst he
    rfl
  · intro e he hc
    rw [hout, he]
    simp only [newError, hc]
  · intro e thrown he hc
    rw [hout, he]
    simp only [newError, hc]
  · intro r hr
    refine ⟨getAsyncResultTry_ok host reg result to_ from_ jumpType w r hr, ?_⟩
    rw [hout, hr]
  · intro thrown he
    rw [hout] at he
    cases ht : (getAsyncResultTry host reg result to_ from_ jumpType w).1 with
    | ok r =>
      rw [ht] at he
      cases he
    | error e1 =>
      rw [ht] at he
      refine ⟨e1, rfl, ?_⟩
      cases hc : conversionError e1 with
      | none =>
        simp only [newError, hc] at he
        cases he
      | some x =>
        simp only [newError, hc] at he
        injection he with he
        rw [he]

/-- The conversion to a string throws for a `Symbol` and for an object whose
`toString` throws, and for nothing else. -/
theorem conversionError_cases (e : Val) :
    (conversionError e = none ↔ (∀ id, e ≠ .symbol id) ∧ ∀ thrown, e ≠ .badToString thrown)
    ∧ (∀ id, conversionError (.symbol id) = some .typeError)
    ∧ (∀ thrown, conversionError (.badToString thrown) = some thrown) := by
  refine ⟨?_, fun _ => rfl, fun _ => rfl⟩
  cases e <;> simp [conversionError]

/-- Claim C7 as stated fails: when the native promise rejects with a
`Symbol`, `getAsyncResult` rejects. -/
theorem getAsyncResult_rejects_symbol :
    (getAsyncResult mpHost noHooks (.error (.symbol 0))
        (.route "pages/a" .undefined .undefined [] (some "navigateTo") "") .null
        "navigateTo" onePage).1 = .error .typeError
    ∧ ¬ ∃ r, (getAsyncResult mpHost noHooks (.error (.symbol 0))
        (.route "pages/a" .undefined .undefined [] (some "navigateTo") "") .null
        "navigateTo" onePage).1 = .ok r := by
  refine ⟨rfl, ?_⟩
  rintro ⟨r, hr⟩
  cases hr

/-! ## Resetting the debounce on failure -/

/-- The wrapper of `payload.fail` calls the function it has kept with the
debounce open again. -/
theorem failWrapper_resets (reg : Registry) (to_ from_ : Val) (w : World) :
    (callWithoutNext reg.onErrorFn to_ from_
      (w.set "allowAction" (.bool true))).2.routerStatus "allowAction" = .bool true := by
  rw [callWithoutNext_status _ _ _ _ _ (by decide), set_same]

/-- A native result of length one opens the debounce again. -/
theorem getAsyncResult_resets (host : Host) (reg : Registry) (newResult : Res)
    (to_ from_ : Val) (jumpType : String) (w : World)
    (h1 : lengthIsOne newResult = .ok true) :
    (getAsyncResult host reg (.ok newResult) to_ from_ jumpType w).2.routerStatus "allowAction"
      = .bool true := by
  have h := callWithoutNext_status reg.onErrorFn to_ from_ (w.set "allowAction" (.bool true))
    "allowAction" (by decide)
  rw [set_same] at h
  unfold getAsyncResult getAsyncResultTry
  simp only [h1]
  cases hc : callWithoutNext reg.onErrorFn to_ from_ (w.set "allowAction" (.bool true)) with
  | mk res w1 =>
    rw [hc] at h
    cases res with
    | error e => exact h
    | ok u => exact h

/-- Claim C8, at an input where it fails: a promise-style call is accepted,
no hook objects, and the native promise rejects.  The failure is reported
(the promise resolves to an `Error`), but `routerStatus.allowAction` is still
`false`. -/
theorem rejection_leaves_debounce_closed :
    (intercept mpHost noHooks rejectingNative { url := some "/pages/a" } "navigateTo"
        onePage).1 = .resolve (.error (.str "navigateTo:fail"))
    ∧ (intercept mpHost noHooks rejectingNative { url := some "/pages/a" } "navigateTo"
        onePage).2.routerStatus "allowAction" = .bool false := by
  decide

/-! ## The query of a jump -/

/-- Claim C9, at an input where it fails: for the target `pages/a?k=` the
hooks receive a query whose key is `k=`, not `k`. -/
theorem empty_value_keeps_equals_sign :
    (interceptSync mpHost { url := some "/pages/a?k=" } "navigateTo" onePage).1
      = .accepted
          (.route "pages/a" .undefined .undefined [("k=", "")] (some "navigateTo") "k=")
          (.route "pages/index" .undefined .undefined [] none "")
    ∧ (intercept mpHost { beforeEachFn := [passHook], afterEachFn := [], onErrorFn := [] }
        pushingNative { url := some "/pages/a?k=" } "navigateTo" onePage).2.trace.head?
      = some (.calledWithNext 1
          (.route "pages/a" .undefined .undefined [("k=", "")] (some "navigateTo") "k=")
          .null) := by
  decide

/-- A query with values, a piece without `=`, an `=` inside a value, an empty
piece and a repeated key: values are kept, the later value of a key wins. -/
theorem query_of_mixed_target :
    (interceptSync mpHost { url := some "/pages/a?k=v&x&y=1=2&&k=w" } "navigateTo" onePage).1
      = .accepted
          (.route "pages/a" .undefined .undefined [("k", "w"), ("x", ""), ("y", "1=2")]
            (some "navigateTo") "k=v&x&y=1=2&&k=w")
          (.route "pages/index" .undefined .undefined [] none "") := by
  decide
/-! ## The target of `navigateBack` -/

/-- Claim C10, amended: for an accepted `navigateBack` on a stack of `n ≥ 1`
pages whose `delta` is an integer `d ≥ 0` (`1` when omitted), the target
index is `max 0 (n - 1 - d)`, lies in `[0, n - 1]`, and the page at that
index exists; when the options of that page decode and
`routerStatus.actionInfo` is the bookkeeping object, `intercept` records the
index in `routerStatus.actionInfo.navigateBack` and builds a `to` whose `url`
is that page's route.  Accepted: the page stack is readable, line 204 reads
the current route, and the debounce is open. -/
theorem navigateBack_target (host : Host) (payload : Payload) (w : World) (d : Int)
    (r : Val)
    (hp : w.pages ≠ []) (hr : getNowRoute host w = .ok r)
    (ha : truthy (w.routerStatus "allowAction") = true)
    (hd : 0 ≤ d) (hdelta : payload.delta.getD (.int 1) = .int d) :
    targetIndex w payload = .int (max 0 ((w.pages.length : Int) - 1 - d))
    ∧ 0 ≤ max 0 ((w.pages.length : Int) - 1 - d)
    ∧ max 0 ((w.pages.length : Int) - 1 - d) ≤ (w.pages.length : Int) - 1
    ∧ ∃ page, pageAt w (targetIndex w payload) = some page
      ∧ ∀ query nb st, pageQuery host page = .ok query →
        w.routerStatus "actionInfo" = .actionInfo nb st →
        (∃ search apn, (interceptSync host payload "navigateBack" w).1
          = .accepted (.route page.route payload.routeParams payload.passedParams query
              (some "navigateBack") search) apn)
        ∧ (interceptSync host payload "navigateBack" w).2.routerStatus "actionInfo"
            = .actionInfo (some (targetIndex w payload)) st := by
  have hlen : 0 < w.pages.length := List.length_pos.mpr hp
  have hidx : targetIndex w payload = .int (max 0 ((w.pages.length : Int) - 1 - d)) := by
    unfold targetIndex
    rw [hdelta]
    simp only [Num.subFrom, Num.ltZero]
    by_cases hneg : (w.pages.length : Int) - 1 - d < 0
    · simp only [hneg, decide_True, if_true]
      congr 1
      omega
    · simp only [hneg, decide_False, Bool.false_eq_true, if_false]
      congr 1
      omega
  have h0 : 0 ≤ max 0 ((w.pages.length : Int) - 1 - d) := by omega
  have h1 : max 0 ((w.pages.length : Int) - 1 - d) ≤ (w.pages.length : Int) - 1 := by omega
  have hlt : (max 0 ((w.pages.length : Int) - 1 - d)).toNat < w.pages.length := by omega
  obtain ⟨page, hpage⟩ :
      ∃ page, w.pages.get? (max 0 ((w.pages.length : Int) - 1 - d)).toNat = some page := by
    cases hg : w.pages.get? (max 0 ((w.pages.length : Int) - 1 - d)).toNat with
    | none =>
      have := List.get?_eq_none.mp hg
      omega
    | some page => exact ⟨page, rfl⟩
  have hpa : pageAt w (targetIndex w payload) = some page := by
    rw [hidx]
    show (if 0 ≤ max 0 ((w.pages.length : Int) - 1 - d) then
      w.pages.get? (max 0 ((w.pages.length : Int) - 1 - d)).toNat else none) = some page
    rw [if_pos h0]
    exact hpage
  refine ⟨hidx, h0, h1, page, hpa, ?_⟩
  intro q nb st hq hinfo
  obtain ⟨top, _, hu⟩ := getNowUrl_of_pages_ne_nil w hp
  have hti : targetIndex ((w.set "allowAction" (.bool false)).setWait false) payload
      = targetIndex w payload := rfl
  have hset : setNavigateBack (targetIndex w payload)
      ((w.set "allowAction" (.bool false)).setWait false)
      = .ok (((w.set "allowAction" (.bool false)).setWait false).set "actionInfo"
          (.actionInfo (some (targetIndex w payload)) st)) := by
    have : ((w.set "allowAction" (.bool false)).setWait false).routerStatus "actionInfo"
        = .actionInfo nb st := by
      simp [set_other _ _ _ _ (show "actionInfo" ≠ "allowAction" by decide), hinfo]
    simp [setNavigateBack, this]
  have hpa2 : pageAt ((((w.set "allowAction" (.bool false)).setWait false).set "actionInfo"
      (.actionInfo (some (targetIndex w payload)) st))) (targetIndex w payload) = some page :=
    hpa
  have hne : ¬ ("navigateBack" = "switchTab") := by decide
  simp only [interceptSync, hu, hr, ha, Bool.not_true, Bool.false_eq_true, if_false, if_true,
    backTarget, hti, hset, hpa2, hq, hne]
  refine ⟨⟨_, _, rfl⟩, ?_⟩
  rw [set_other _ _ _ _ (by decide), set_same]

/-- Going back two pages from the third page of a stack reaches index `0`,
the index recorded and the page whose route `to.url` is. -/
theorem navigateBack_target_witness :
    targetIndex threePages { delta := some (.int 2) } = .int (max 0 ((3 : Int) - 1 - 2))
    ∧ ∃ page, pageAt threePages (targetIndex threePages { delta := some (.int 2) }) = some page
      ∧ (interceptSync mpHost { delta := some (.int 2) } "navigateBack"
          threePages).2.routerStatus "actionInfo"
          = .actionInfo (some (targetIndex threePages { delta := some (.int 2) })) none := by
  have h := navigateBack_target mpHost { delta := some (.int 2) } threePages 2
    (.route "pages/detail" .undefined .undefined [] none "")
    (by decide) (by decide) (by decide) (by decide) rfl
  obtain ⟨h1, _, _, page, hp, hrest⟩ := h
  have hpage : page = { route := "pages/index" } := by
    have h2 : pageAt threePages (targetIndex threePages { delta := some (.int 2) })
        = some { route := "pages/index" } := by decide
    rw [h2] at hp
    injection hp with hp
    exact hp.symm
  subst hpage
  exact ⟨h1, _, hp, (hrest [] none none (by decide) (by decide)).2⟩

/-- Claim C10 as stated fails, in two ways.  With `delta = 1.5` on three
pages, a `delta ≥ 0`, the index is `0.5`: the lookup misses and `intercept`
throws.  And with `delta = 2` on three pages of which the first was opened
with the query `x=%`, the index `0` is recorded and the page is found, but
decoding its options throws (line 237) and no `to` is built. -/
theorem navigateBack_target_misses :
    (threePages.pages ≠ []
      ∧ truthy (threePages.routerStatus "allowAction") = true
      ∧ (Num.between 1).geZero = true
      ∧ targetIndex threePages { delta := some (.between 1) } = .between 0
      ∧ pageAt threePages (targetIndex threePages { delta := some (.between 1) }) = none
      ∧ (intercept mpHost noHooks pushingNative { delta := some (.between 1) } "navigateBack"
          threePages).1 = .throw .typeError)
    ∧ (percentBelow.pages ≠ []
      ∧ truthy (percentBelow.routerStatus "allowAction") = true
      ∧ targetIndex percentBelow { delta := some (.int 2) } = .int 0
      ∧ pageAt percentBelow (.int 0)
          = some { route := "pages/index", options := [("x", "%")] }
      ∧ (interceptSync mpHost { delta := some (.int 2) } "navigateBack" percentBelow).1
          = .threw .uriError
      ∧ (interceptSync mpHost { delta := some (.int 2) } "navigateBack"
          percentBelow).2.routerStatus "actionInfo" = .actionInfo (some (.int 0)) none
      ∧ (intercept mpHost noHooks pushingNative { delta := some (.int 2) } "navigateBack"
          percentBelow).1 = .throw .uriError) := by
  decide

end UniCrazyRouter
